/-
  Verification development for the hotel-competitiveness analysis engine.

  The development shallowly embeds the two Python modules that carry the
  domain logic:

  * `src/data_processor.py`  (class `DataProcessor`): dataset loading and
    cleaning, the B2B configuration validator, the competitiveness scorer,
    the cross-market correlator, and the price-change simulator.
  * `src/competitive_analyzer.py` (class `CompetitiveAnalyzer`): the
    market-opportunity classifier and the pricing-anomaly detector.

  Two layers are used:

  * A "load layer" that models pandas DataFrames as association-list rows
    (`DF`) so that column presence/absence and the sequential, partially
    mutating behaviour of `load_data` / `_clean_data` can be stated.
  * A "query layer" over typed rows (`IntRow`, `ExtRow`, `XRow`): every
    query in the source runs after a successful load, on tables whose
    consumed cells are well typed, so the analytical functions are
    translated over typed records.  Machine floats are modelled as exact
    rationals (ℚ); the sample standard deviation, which the source obtains
    from floating-point `sqrt`, is modelled with `Real.sqrt` over the
    rational variance.

  pandas/NumPy semantics encoded explicitly where they matter:
  * `Series.std()` with fewer than two values is NaN; every comparison with
    NaN is false; Python's `max(0, x)` returns `0` when `x` is NaN because
    `nan > 0` is false.
  * Boolean-mask indexing (`df[mask]`) returns a copy, so assigning a
    column of the filtered frame does not write through to the stored
    table.
  * `round` is Python's round-half-to-even.
-/
import Mathlib

namespace HotelComp

/-! ### Python-style rounding (round-half-to-even) -/

/-- Python's `round` to an integer: round half to even. -/
def pyRound {α : Type} [LinearOrderedField α] [FloorRing α]
    [DecidableRel ((· < ·) : α → α → Prop)] (x : α) : ℤ :=
  if Int.fract x < 1/2 then ⌊x⌋
  else if 1/2 < Int.fract x then ⌊x⌋ + 1
  else if 2 ∣ ⌊x⌋ then ⌊x⌋ else ⌊x⌋ + 1

/-- Python's `round(x, 2)`. -/
def round2 {α : Type} [LinearOrderedField α] [FloorRing α]
    [DecidableRel ((· < ·) : α → α → Prop)] (x : α) : α :=
  (pyRound (100 * x) : α) / 100

/-- Python's `round(x, 1)`. -/
def round1 {α : Type} [LinearOrderedField α] [FloorRing α]
    [DecidableRel ((· < ·) : α → α → Prop)] (x : α) : α :=
  (pyRound (10 * x) : α) / 10

theorem pyRound_le {α : Type} [LinearOrderedField α] [FloorRing α]
    [DecidableRel ((· < ·) : α → α → Prop)] (x : α) :
    (pyRound x : α) ≤ x + 1/2 := by
  have hxf : (⌊x⌋ : α) + Int.fract x = x := Int.floor_add_fract x
  have h0 : 0 ≤ Int.fract x := Int.fract_nonneg x
  unfold pyRound
  split_ifs with h1 h2 h3 <;> push_cast <;> linarith

theorem le_pyRound {α : Type} [LinearOrderedField α] [FloorRing α]
    [DecidableRel ((· < ·) : α → α → Prop)] (x : α) :
    x - 1/2 ≤ (pyRound x : α) := by
  have hxf : (⌊x⌋ : α) + Int.fract x = x := Int.floor_add_fract x
  have h1' : Int.fract x < 1 := Int.fract_lt_one x
  unfold pyRound
  split_ifs with h1 h2 h3 <;> push_cast <;> linarith

theorem pyRound_nonneg {α : Type} [LinearOrderedField α] [FloorRing α]
    [DecidableRel ((· < ·) : α → α → Prop)] (x : α) (hx : 0 ≤ x) :
    0 ≤ pyRound x := by
  by_contra hc
  push_neg at hc
  have h1 : pyRound x ≤ -1 := by omega
  have h2 : (pyRound x : α) ≤ -1 := by exact_mod_cast h1
  have := le_pyRound x
  linarith

theorem pyRound_le_int {α : Type} [LinearOrderedField α] [FloorRing α]
    [DecidableRel ((· < ·) : α → α → Prop)] (x : α) (n : ℤ) (hx : x ≤ n) :
    pyRound x ≤ n := by
  by_contra hc
  push_neg at hc
  have h1 : n + 1 ≤ pyRound x := by omega
  have h2 : ((n : α) + 1) ≤ (pyRound x : α) := by exact_mod_cast h1
  have h3 := pyRound_le x
  have h4 : (pyRound x : α) ≤ (n : α) + 1/2 := le_trans h3 (by linarith)
  linarith

/-- Rounding to two decimals keeps a value inside `[0, 100]`. -/
theorem round2_bounds {α : Type} [LinearOrderedField α] [FloorRing α]
    [DecidableRel ((· < ·) : α → α → Prop)] (x : α)
    (h0 : 0 ≤ x) (h1 : x ≤ 100) : 0 ≤ round2 x ∧ round2 x ≤ 100 := by
  unfold round2
  have hn : (0:ℤ) ≤ pyRound (100 * x) := pyRound_nonneg _ (by linarith)
  have hu : pyRound (100 * x) ≤ (10000 : ℤ) := pyRound_le_int _ _ (by push_cast; linarith)
  have hn' : (0:α) ≤ (pyRound (100 * x) : α) := by exact_mod_cast hn
  have hu' : (pyRound (100 * x) : α) ≤ 10000 := by exact_mod_cast hu
  constructor
  · positivity
  · rw [div_le_iff₀ (by norm_num : (0:α) < 100)]
    linarith

/-- Rounding to one decimal keeps a value inside `[0, 100]`. -/
theorem round1_bounds {α : Type} [LinearOrderedField α] [FloorRing α]
    [DecidableRel ((· < ·) : α → α → Prop)] (x : α)
    (h0 : 0 ≤ x) (h1 : x ≤ 100) : 0 ≤ round1 x ∧ round1 x ≤ 100 := by
  unfold round1
  have hn : (0:ℤ) ≤ pyRound (10 * x) := pyRound_nonneg _ (by linarith)
  have hu : pyRound (10 * x) ≤ (1000 : ℤ) := pyRound_le_int _ _ (by push_cast; linarith)
  have hn' : (0:α) ≤ (pyRound (10 * x) : α) := by exact_mod_cast hn
  have hu' : (pyRound (10 * x) : α) ≤ 1000 := by exact_mod_cast hu
  constructor
  · positivity
  · rw [div_le_iff₀ (by norm_num : (0:α) < 10)]
    linarith

/-! ### Elementary statistics (pandas `mean` / sample `std`) -/

/-- Sum of a list of rationals. -/
def qsum : List ℚ → ℚ
  | [] => 0
  | x :: xs => x + qsum xs

/-- pandas `Series.mean()` (only ever applied to nonempty series in the
    translated call sites). -/
def qmean (l : List ℚ) : ℚ := qsum l / l.length

/-- pandas `Series.std()` squared: the sample variance with denominator
    `n - 1`; `none` models the NaN produced for fewer than two values. -/
def sampleVar (l : List ℚ) : Option ℚ :=
  if l.length < 2 then none
  else some (qsum (l.map (fun x => (x - qmean l) ^ 2)) / ((l.length : ℚ) - 1))

theorem qsum_const (c : ℚ) : ∀ l : List ℚ, (∀ x ∈ l, x = c) → qsum l = c * l.length
  | [], _ => by simp [qsum]
  | x :: xs, h => by
    have hx : x = c := h x (List.mem_cons_self x xs)
    have ih := qsum_const c xs (fun y hy => h y (List.mem_cons_of_mem x hy))
    simp [qsum, hx, ih]
    push_cast
    ring

theorem qmean_const (c : ℚ) (l : List ℚ) (hne : l ≠ []) (h : ∀ x ∈ l, x = c) :
    qmean l = c := by
  have hlen : (l.length : ℚ) ≠ 0 := by
    simpa using List.length_pos.mpr hne |>.ne'
  unfold qmean
  rw [qsum_const c l h]
  field_simp

theorem sampleVar_const (c : ℚ) (l : List ℚ) (hlen : 2 ≤ l.length)
    (h : ∀ x ∈ l, x = c) : sampleVar l = some 0 := by
  unfold sampleVar
  rw [if_neg (by omega)]
  have hne : l ≠ [] := by
    intro hnil; rw [hnil] at hlen; simp at hlen
  have hm : qmean l = c := qmean_const c l hne h
  have hz : ∀ y ∈ l.map (fun x => (x - qmean l) ^ 2), y = 0 := by
    intro y hy
    rcases List.mem_map.mp hy with ⟨x, hx, rfl⟩
    rw [h x hx, hm]; ring
  rw [qsum_const 0 _ hz]
  simp

theorem qsum_nonneg : ∀ l : List ℚ, (∀ x ∈ l, 0 ≤ x) → 0 ≤ qsum l
  | [], _ => le_refl 0
  | x :: xs, h => by
    have hx : 0 ≤ x := h x (List.mem_cons_self x xs)
    have ih := qsum_nonneg xs (fun y hy => h y (List.mem_cons_of_mem x hy))
    simp only [qsum]
    linarith

theorem sampleVar_nonneg (l : List ℚ) (v : ℚ) (h : sampleVar l = some v) : 0 ≤ v := by
  unfold sampleVar at h
  by_cases hlen : l.length < 2
  · rw [if_pos hlen] at h; exact absurd h (by simp)
  · rw [if_neg hlen] at h
    have hv : qsum (l.map (fun x => (x - qmean l) ^ 2)) / ((l.length : ℚ) - 1) = v :=
      Option.some.inj h
    have hs : 0 ≤ qsum (l.map (fun x => (x - qmean l) ^ 2)) := by
      apply qsum_nonneg
      intro y hy
      rcases List.mem_map.mp hy with ⟨x, _, rfl⟩
      positivity
    have hden : (0:ℚ) < (l.length : ℚ) - 1 := by
      push_neg at hlen
      have : (2:ℚ) ≤ (l.length : ℚ) := by exact_mod_cast hlen
      linarith
    rw [← hv]
    positivity

/-! ### First-occurrence deduplication (pandas `unique` / `drop_duplicates`) -/

/-- pandas `unique()` / `drop_duplicates()`: keep the first occurrence of
    each value, preserving order. -/
def dedupFirst {α : Type} [DecidableEq α] (l : List α) : List α :=
  l.foldl (fun acc x => if x ∈ acc then acc else acc ++ [x]) []

/-! ### Query-layer data model

After a successful `load_data`, every cell the query operations consume is
well typed (prices and derived columns numeric, identifiers strings), so
the analytical operations are translated over typed records.  A raw cell
type is kept for the Extranet fields whose checks compare a cell against
both string and numeric literals (`'Sí'`/`'Si'`/`'1'`/`1`). -/

/-- A raw tabular cell: a string, a number, or a parsed date
    (dates are abstracted to an ordinal; queries only compare them). -/
inductive Cell where
  | s (v : String)
  | q (v : ℚ)
  | d (v : ℕ)
deriving DecidableEq

/-- One row of Hound Internal: hotel, market (`PoS`), contracted base rate
    (`PamBaseRate ($)`, numeric after cleaning), currency
    (`contractcurrencybase_pam`). -/
structure IntRow where
  hotel : String
  pos : String
  pam : ℚ
  currency : String
deriving DecidableEq

/-- One row of Hound External after normalization: identifiers, dates,
    party, stay length (`los`), own price (`price_despegar (USD)`),
    best competitor price (`buyers_best_price_competitor_total (USD)`),
    and the derived percentage gap `price_diff_pct`. -/
structure ExtRow where
  hotel : String
  pos : String
  agency : String
  check_in : ℕ
  check_out : ℕ
  adults : ℤ
  children : ℤ
  los : ℚ
  price : ℚ
  comp : ℚ
  gap : ℚ
deriving DecidableEq

/-- One row of the Extranet feed: `Hotel`, `Api_Tildado`, `HTML_Tildado`,
    `availableWrapper`, `PrepagoActivo`, `Rate_type`, `Pos_Tildado`,
    `Disponibilidad` (numeric: the source applies `float(...)`). -/
structure XRow where
  hotel : String
  api : Cell
  html : Cell
  wrapper : Cell
  prepago : Cell
  rate_type : Cell
  pos_tildado : Cell
  disponibilidad : ℚ
deriving DecidableEq

/-- The three loaded tables held by `DataProcessor` (query-layer view). -/
structure Store where
  hound_internal : List IntRow
  hound_external : List ExtRow
  extranet : List XRow
deriving DecidableEq

/-! ### Configuration Validator (`DataProcessor.validate_b2b_configuration`) -/

/-- Models `row[col] in ['Sí', 'Si', '1', 1]` — the `availableWrapper` check lists
    the same four literals in a different order, which is immaterial. -/
def isSi : Cell → Bool
  | .s v => v == "Sí" || v == "Si" || v == "1"
  | .q v => v == 1
  | .d _ => false

/-- Models `row['Rate_type'] != 'STANDALONE'`: a non-string cell never equals the
    string literal, so it passes. -/
def notStandalone : Cell → Bool
  | .s v => !(v == "STANDALONE")
  | _ => true

/-- Models `bool(str(row['Pos_Tildado']).strip())`: a string is truthy after
    stripping whitespace iff it contains a non-whitespace character;
    `str` of a number or date is never blank. -/
def hasMarkets : Cell → Bool
  | .s v => v.toList.any (fun c => !c.isWhitespace)
  | _ => true

/-- Models `str(cell)` as used for `markets_configured` (numeric rendering is not
    exercised by any claim; queries only split string cells). -/
def strCell : Cell → String
  | .s v => v
  | .q v => toString v
  | .d v => toString v

/-- The `validations` dict of seven boolean checks. -/
structure Vals where
  api_configured : Bool
  html_configured : Bool
  wrapper_configured : Bool
  prepago_configured : Bool
  rate_type_valid : Bool
  has_markets : Bool
  good_availability : Bool
deriving DecidableEq

/-- Models `sum(validations.values())`. -/
def Vals.count (v : Vals) : ℕ :=
  v.api_configured.toNat + v.html_configured.toNat + v.wrapper_configured.toNat +
    v.prepago_configured.toNat + v.rate_type_valid.toNat + v.has_markets.toNat +
    v.good_availability.toNat

/-- The seven checks evaluated on one Extranet row. -/
def rowVals (r : XRow) : Vals where
  api_configured := isSi r.api
  html_configured := isSi r.html
  wrapper_configured := isSi r.wrapper
  prepago_configured := isSi r.prepago
  rate_type_valid := notStandalone r.rate_type
  has_markets := hasMarkets r.pos_tildado
  good_availability := decide (r.disponibilidad ≥ 9/10)

/-- The `critical_issues` list: the five sequential appends for failing
    API / HTML / wrapper / prepago / rate-type checks. -/
def criticalIssues (v : Vals) : List String :=
  (if v.api_configured then [] else ["API no configurado"]) ++
    (if v.html_configured then [] else ["HTML no configurado"]) ++
    (if v.wrapper_configured then [] else ["Wrapper no habilitado"]) ++
    (if v.prepago_configured then [] else ["Prepago no activo"]) ++
    (if v.rate_type_valid then [] else ["Rate type STANDALONE no recomendado"])

/-- The per-hotel record stored in `validation_results`. -/
structure VRec where
  config_score : ℚ
  status : String
  priority : String
  validations : Vals
  critical_issues : List String
  markets_configured : List String
  rate_type : Cell
  availability : ℚ
deriving DecidableEq

/-- The body of the `for _, row in df.iterrows()` loop: builds the record
    stored under `row['Hotel']`.  The status tiers test the unrounded
    score; the stored `config_score` is rounded to one decimal. -/
def validateRow (r : XRow) : VRec :=
  let v := rowVals r
  let config_score : ℚ := (v.count : ℚ) / 7 * 100
  { config_score := round1 config_score
    status := if config_score ≥ 85 then "optimal"
      else if config_score ≥ 70 then "good" else "critical"
    priority := if config_score ≥ 85 then "low"
      else if config_score ≥ 70 then "medium" else "high"
    validations := v
    critical_issues := criticalIssues v
    markets_configured := (strCell r.pos_tildado).splitOn ", "
    rate_type := r.rate_type
    availability := r.disponibilidad }

/-- Python-dict association list: insertion keeps the first position of a
    key but overwrites its value; an unseen key is appended. -/
def dictInsert {β : Type} : List (String × β) → String → β → List (String × β)
  | [], k, v => [(k, v)]
  | (k', v') :: rest, k, v =>
    if k' = k then (k, v) :: rest else (k', v') :: dictInsert rest k v

/-- Lookup in an association list (Python `dict[k]` / `dict.get`). -/
def alookup {β : Type} : List (String × β) → String → Option β
  | [], _ => none
  | (k, v) :: rest, key => if k = key then some v else alookup rest key

/-- Models `DataProcessor.validate_b2b_configuration`: optional filter to one
    hotel, then one record per iterated row keyed by `row['Hotel']`
    (a duplicated hotel overwrites the earlier entry, dict-style). -/
def validate_b2b_configuration (st : Store) (hotel_name : Option String) :
    List (String × VRec) :=
  let df : List XRow := match hotel_name with
    | some h => st.extranet.filter (fun r => r.hotel = h)
    | none => st.extranet
  df.foldl (fun acc r => dictInsert acc r.hotel (validateRow r)) []

/-! ### Competitiveness Scorer (`DataProcessor.calculate_competitiveness_score`) -/

/-- The consistency component `max(0, 100 - price_volatility)`.  A `none`
    variance models the NaN standard deviation of fewer than two rows;
    Python's `max(0, 100 - nan)` returns its first argument `0` because
    `nan > 0` is false. -/
noncomputable def consistency_score (gaps : List ℚ) : ℝ :=
  match sampleVar gaps with
  | none => 0
  | some v => max 0 (100 - Real.sqrt v)

/-- Models `len(unique (PoS, check_in, check_out, adults, children))`. -/
def uniqueCombos (data : List ExtRow) : ℕ :=
  (dedupFirst (data.map fun r => (r.pos, r.check_in, r.check_out, r.adults, r.children))).length

/-- The availability component: distinct-combination count over
    `max(1, total_searches)`, times 100. -/
def availability_score (data : List ExtRow) : ℚ :=
  (uniqueCombos data : ℚ) / max 1 (data.length : ℚ) * 100

/-- Models `b2b_validation.get(hotel_name, {}).get('config_score', 0) if
    b2b_validation else 0`. -/
def b2bScore (st : Store) (hotel_name : String) : ℚ :=
  let bv := validate_b2b_configuration st (some hotel_name)
  if bv.isEmpty then 0
  else ((alookup bv hotel_name).map VRec.config_score).getD 0

/-- Models `DataProcessor.calculate_competitiveness_score`: the weighted
    30/25/25/20 sum, rounded to two decimals; a hotel with no external
    rows scores exactly `0.0`. -/
noncomputable def calculate_competitiveness_score (st : Store) (hotel_name : String) : ℝ :=
  let external_data := st.hound_external.filter (fun r => r.hotel = hotel_name)
  if external_data.isEmpty then 0
  else
    let gaps := external_data.map ExtRow.gap
    let price_score : ℚ := max 0 (min 100 (50 - qmean gaps))
    let availability : ℚ := availability_score external_data
    let consistency : ℝ := consistency_score gaps
    let b2b : ℚ := b2bScore st hotel_name
    round2 ((price_score : ℝ) * 0.30 + (availability : ℝ) * 0.25 +
      consistency * 0.25 + (b2b : ℝ) * 0.20)

/-! ### Market Opportunity Classifier
(`CompetitiveAnalyzer.analyze_market_opportunities`) -/

/-- One market's entry in the opportunities mapping. -/
structure OppRec where
  avg_price_diff : ℚ
  /-- `round(std, 2)`; `none` is the NaN deviation of a one-row market. -/
  volatility : Option ℝ
  search_volume : ℕ
  interested_agencies : ℕ
  opportunity_type : String
  priority : String
  competitiveness_score : ℝ

/-- Models `CompetitiveAnalyzer._calculate_market_score`: the unweighted average
    of three clamped components, rounded to two decimals.  A NaN
    volatility makes `max(0, 50 - volatility)` return `0` (Python `max`
    keeps its first argument on a failed comparison). -/
noncomputable def market_score (avg_diff : ℚ) (vol : Option ℝ) (volume : ℕ) : ℝ :=
  let price_component : ℚ := max 0 (50 - avg_diff)
  let stability_component : ℝ := match vol with
    | none => 0
    | some s => max 0 (50 - s)
  let volume_component : ℚ := min 50 ((volume : ℚ) / 10)
  round2 (((price_component : ℝ) + stability_component + (volume_component : ℝ)) / 3)

/-- The classifier's loop body for one market's rows. -/
noncomputable def mkOpp (posData : List ExtRow) : OppRec :=
  let gaps := posData.map ExtRow.gap
  let avg_diff := qmean gaps
  let vol : Option ℝ := (sampleVar gaps).map Real.sqrt
  let td : String × String :=
    if avg_diff < -5 then ("Subir precios", "Media")
    else if avg_diff > 10 then ("Bajar precios", "Alta")
    else ("Monitorear", "Baja")
  { avg_price_diff := round2 avg_diff
    volatility := vol.map round2
    search_volume := posData.length
    interested_agencies := (dedupFirst (posData.map ExtRow.agency)).length
    opportunity_type := td.1
    priority := td.2
    competitiveness_score := market_score avg_diff vol posData.length }

/-- Models `CompetitiveAnalyzer.analyze_market_opportunities`: one entry per
    first-occurrence-unique market of the hotel's offer rows; empty input
    yields the empty mapping. -/
noncomputable def analyze_market_opportunities (st : Store) (hotel_name : String) :
    List (String × OppRec) :=
  let data := st.hound_external.filter (fun r => r.hotel = hotel_name)
  if data.isEmpty then []
  else (dedupFirst (data.map ExtRow.pos)).map
    (fun pos => (pos, mkOpp (data.filter (fun r => r.pos = pos))))

/-! ### Anomaly Detector (`CompetitiveAnalyzer.identify_pricing_anomalies`) -/

/-- One reported anomaly (the row's fields plus its z-score).  The date is
    the abstract check-in ordinal (`strftime` only formats it). -/
structure ARec where
  date : ℕ
  pos : String
  adults : ℤ
  children : ℤ
  los : ℚ
  price_diff_pct : ℚ
  z_score : ℝ
  agency : String
  our_price : ℚ
  competitor_price : ℚ

/-- The comparison `z_score > threshold` with
    `z = |gap - mean| / std` under pandas float semantics: a NaN standard
    deviation (fewer than two rows), or the `0/0` arising when the
    deviation is zero, yields a NaN z-score, and every comparison with NaN
    is false.  A nonzero numerator over a zero deviation would be infinite
    and exceed any threshold (unreachable for rows drawn from the set the
    deviation was computed over). -/
noncomputable def zGT (v : Option ℚ) (m g t : ℚ) : Bool :=
  match v with
  | none => false
  | some var =>
    if var = 0 then (if g - m = 0 then false else true)
    else decide (|((g : ℚ) : ℝ) - (m : ℝ)| / Real.sqrt var > (t : ℝ))

/-- The z-score value stored in a reported anomaly (defined for the rows
    that pass `zGT`, where the variance is positive). -/
noncomputable def zVal (v : Option ℚ) (m g : ℚ) : ℝ :=
  match v with
  | none => 0
  | some var => |((g : ℚ) : ℝ) - (m : ℝ)| / Real.sqrt var

/-- Builds the reported record for one outlier row. -/
noncomputable def mkAnomaly (v : Option ℚ) (m : ℚ) (r : ExtRow) : ARec where
  date := r.check_in
  pos := r.pos
  adults := r.adults
  children := r.children
  los := r.los
  price_diff_pct := round2 r.gap
  z_score := round2 (zVal v m r.gap)
  agency := r.agency
  our_price := r.price
  competitor_price := r.comp

/-- Models `sorted(key=lambda x: abs(x['price_diff_pct']), reverse=True)` is a
    stable descending sort: insertion sort by `≥` on the absolute rounded
    gap. -/
def anomGE (a b : ARec) : Prop := |b.price_diff_pct| ≤ |a.price_diff_pct|

instance : DecidableRel anomGE := fun a b =>
  inferInstanceAs (Decidable (|b.price_diff_pct| ≤ |a.price_diff_pct|))

instance : IsTotal ARec anomGE := ⟨fun _ _ => (le_total _ _).symm⟩

instance : IsTrans ARec anomGE := ⟨fun _ _ _ h1 h2 => le_trans h2 h1⟩

/-- Models `CompetitiveAnalyzer.identify_pricing_anomalies`: annotate each of the
    hotel's rows with its z-score (on a copy of the frame), keep those
    exceeding the threshold, and sort by descending absolute gap. -/
noncomputable def identify_pricing_anomalies (st : Store) (hotel_name : String)
    (threshold : ℚ) : List ARec :=
  let data := st.hound_external.filter (fun r => r.hotel = hotel_name)
  if data.isEmpty then []
  else
    let gaps := data.map ExtRow.gap
    let m := qmean gaps
    let v := sampleVar gaps
    let outliers := data.filter (fun r => zGT v m r.gap threshold)
    (outliers.map (mkAnomaly v m)).insertionSort anomGE

/-! ### Cross-Market Correlator (`DataProcessor.cross_market_analysis`) -/

/-- One entry of the `matches` list. -/
structure MatchRec where
  pos : String
  pam_rate : ℚ
  external_price : ℚ
  difference_pct : ℚ
  currency : String
deriving DecidableEq

/-- The correlator's result dict.  `match_list` is the dict's `matches`
    entry; the hotel-absent branch returns a dict without that key,
    modelled as `none`. -/
structure CMResult where
  match_found : Bool
  match_list : Option (List MatchRec)
  analysis : String
deriving DecidableEq

/-- Ascending order on the rounded difference percentage, the Python
    `sorted` key. -/
def matchLE (a b : MatchRec) : Prop := a.difference_pct ≤ b.difference_pct

instance : DecidableRel matchLE := fun a b =>
  inferInstanceAs (Decidable (a.difference_pct ≤ b.difference_pct))

instance : IsTotal MatchRec matchLE := ⟨fun _ _ => le_total _ _⟩

instance : IsTrans MatchRec matchLE := ⟨fun _ _ _ h1 h2 => le_trans h1 h2⟩

/-- The loop body: `abs((external_price - pam_rate) / pam_rate * 100)`
    against the closed 15 % threshold.  A zero contracted rate is no
    match: pandas produces an infinite difference, never within the
    threshold. -/
def rowMatch (external_price : ℚ) (r : IntRow) : Option MatchRec :=
  if r.pam = 0 then none
  else
    let diff := |(external_price - r.pam) / r.pam * 100|
    if diff ≤ 15 then
      some { pos := r.pos, pam_rate := r.pam, external_price := external_price
             difference_pct := round2 diff, currency := r.currency }
    else none

/-- Models `DataProcessor.cross_market_analysis`. -/
def cross_market_analysis (st : Store) (external_price : ℚ) (hotel_name : String) :
    CMResult :=
  let internal_data := st.hound_internal.filter (fun r => r.hotel = hotel_name)
  if internal_data.isEmpty then
    { match_found := false, match_list := none
      analysis := "Hotel no encontrado en datos internos" }
  else
    let ms := internal_data.filterMap (rowMatch external_price)
    { match_found := decide (ms.length > 0)
      match_list := some (ms.insertionSort matchLE)
      analysis := if ms.isEmpty then "No se encontraron mercados similares"
        else "Encontrados " ++ toString ms.length ++ " mercados similares" }

/-! ### Price-Change Simulator (`DataProcessor.simulate_conversion_impact`) -/

/-- The simulator's result dict (success case). -/
structure SimResult where
  current_avg_diff_pct : ℚ
  new_avg_diff_pct : ℚ
  current_competitive_positions : ℕ
  new_competitive_positions : ℤ
  estimated_conversion_change_pct : ℚ
  total_positions : ℕ
  b2b_config_impact : ℚ
deriving DecidableEq

/-- Models `DataProcessor.simulate_conversion_impact`.  A hotel with no external
    rows yields the `{"error": "Hotel no encontrado"}` dict, modelled as
    `Except.error`.  The configuration multiplier defaults to `1.0` and is
    replaced by `0.5 + (config_score/100)*0.5` only when the validator's
    dict is nonempty and contains the hotel — equivalently, when the
    lookup succeeds. -/
def simulate_conversion_impact (st : Store) (hotel_name : String)
    (price_change_pct : ℚ) : Except String SimResult :=
  let external_data := st.hound_external.filter (fun r => r.hotel = hotel_name)
  if external_data.isEmpty then .error "Hotel no encontrado"
  else
    let gaps := external_data.map ExtRow.gap
    let current_avg_diff := qmean gaps
    let current_competitive_positions := (external_data.filter (fun r => r.gap < 0)).length
    let total_positions := external_data.length
    let new_price_diff := current_avg_diff + price_change_pct
    let elasticity : ℚ := -2
    let competitiveness_change := price_change_pct * elasticity
    let new_competitive_positions : ℚ :=
      min (total_positions : ℚ)
        (max 0 ((current_competitive_positions : ℚ) +
          competitiveness_change / 100 * (total_positions : ℚ)))
    let b2b_validation := validate_b2b_configuration st (some hotel_name)
    let b2b_multiplier : ℚ :=
      match alookup b2b_validation hotel_name with
      | some rec => 1/2 + rec.config_score / 100 * (1/2)
      | none => 1
    let conversion_multiplier := (1/2 : ℚ) * b2b_multiplier
    let estimated_conversion_change := competitiveness_change * conversion_multiplier
    .ok { current_avg_diff_pct := round2 current_avg_diff
          new_avg_diff_pct := round2 new_price_diff
          current_competitive_positions := current_competitive_positions
          new_competitive_positions := pyRound new_competitive_positions
          estimated_conversion_change_pct := round2 estimated_conversion_change
          total_positions := total_positions
          b2b_config_impact := round1 ((b2b_multiplier - 1) * 100) }

/-! ### Method-call views

None of the five query methods ever assigns to `self.dp.hound_internal`,
`self.dp.hound_external` or `self.dp.extranet`; the only column assignment
(`data['z_score'] = ...` in the detector) targets the frame obtained by
boolean-mask indexing, which in pandas is a copy of the stored table, not
a view onto it (the source suppresses the resulting
`SettingWithCopyWarning` globally).  Each method-call view therefore pairs
the result with the unchanged store. -/

noncomputable def calculate_competitiveness_score_call (st : Store) (h : String) :
    ℝ × Store :=
  (calculate_competitiveness_score st h, st)

noncomputable def analyze_market_opportunities_call (st : Store) (h : String) :
    List (String × OppRec) × Store :=
  (analyze_market_opportunities st h, st)

noncomputable def identify_pricing_anomalies_call (st : Store) (h : String) (t : ℚ) :
    List ARec × Store :=
  (identify_pricing_anomalies st h t, st)

def cross_market_analysis_call (st : Store) (p : ℚ) (h : String) :
    CMResult × Store :=
  (cross_market_analysis st p h, st)

def simulate_conversion_impact_call (st : Store) (h : String) (pct : ℚ) :
    Except String SimResult × Store :=
  (simulate_conversion_impact st h pct, st)

/-! ### Load layer (`DataProcessor.load_data` / `DataProcessor._clean_data`)

Raw frames are modelled as a column-name list plus rows of `(name, cell)`
bindings; `pd.read_csv` never requires particular columns, so a read is
modelled by its outcome (`some` frame or a raised error for a malformed
source).  Each Python statement of the load path is one sequential step;
an exception aborts the remaining steps, `load_data` catches it and
returns `False` with the store as mutated so far. -/

/-- One CSV record: an association list of cells. -/
abbrev RawRow := List (String × Cell)

/-- A raw frame: its column names and its rows. -/
structure DF where
  cols : List String
  rows : List RawRow
deriving DecidableEq

/-- The mutable state of `DataProcessor`: the three tables, `None` before
    a first successful assignment. -/
structure RawStore where
  hound_internal : Option DF
  hound_external : Option DF
  extranet : Option DF
deriving DecidableEq

/-- Per-row fallible transformation (a column-wide pandas operation: the
    whole new column is computed before it is assigned, so one statement
    either fully applies or raises without assigning). -/
def rowsMapE (f : RawRow → Except String RawRow) :
    List RawRow → Except String (List RawRow)
  | [] => .ok []
  | r :: rs =>
    match f r with
    | .error e => .error e
    | .ok r' =>
      match rowsMapE f rs with
      | .error e => .error e
      | .ok rs' => .ok (r' :: rs')

/-- Digit-string value. -/
def digitsVal (cs : List Char) : Option ℕ :=
  if cs ≠ [] ∧ cs.all Char.isDigit then
    some (cs.foldl (fun a c => a * 10 + (c.toNat - 48)) 0)
  else none

/-- Models `float(s)` on the string shapes arising in the datasets: optional
    sign, integer part, optional decimal part.  (Exponent forms,
    infinities and surrounding whitespace do not occur in the modelled
    sources.) -/
def parseFloat (s : String) : Option ℚ :=
  let sgn : ℚ := if s.startsWith "-" then -1 else 1
  let body := if s.startsWith "-" then s.drop 1 else s
  match body.splitOn "." with
  | [i] => (digitsVal i.toList).map (fun n => sgn * n)
  | [i, f] =>
    match digitsVal i.toList, digitsVal f.toList with
    | some n, some m => some (sgn * ((n : ℚ) + (m : ℚ) / (10 : ℚ) ^ f.length))
    | _, _ => none
  | _ => none

/-- Models `cell.astype(str).str.replace(',', '').astype(float)` on one cell:
    numeric cells round-trip, string cells are parsed after removing the
    grouping commas, a date cell's rendering does not parse as a float. -/
def cellToFloat : Cell → Option ℚ
  | .q v => some v
  | .s v => parseFloat (v.replace "," "")
  | .d _ => none

/-- Models `pd.to_datetime(cell, dayfirst=True)` on a textual `D/M/Y` date,
    abstracted to the ordinal `y*10000 + m*100 + d`.  (The epoch
    interpretation of numeric cells does not occur in the modelled
    sources.) -/
def cellToDate : Cell → Option Cell
  | .s v =>
    match v.splitOn "/" with
    | [d, m, y] =>
      match digitsVal d.toList, digitsVal m.toList, digitsVal y.toList with
      | some dv, some mv, some yv => some (.d (yv * 10000 + mv * 100 + dv))
      | _, _, _ => none
    | _ => none
  | .d n => some (.d n)
  | .q _ => none

/-- Models `df[col] = df[col].astype(str).str.replace(',', '').astype(float)`,
    guarded by `if col in df.columns` (an absent column is skipped, not an
    error). -/
def cleanPriceCol (df : DF) (col : String) : Except String DF :=
  if col ∈ df.cols then
    match rowsMapE (fun r =>
      match alookup r col with
      | some cell =>
        match cellToFloat cell with
        | some v => .ok (dictInsert r col (.q v))
        | none => .error "ValueError"
      | none => .error "KeyError") df.rows with
    | .ok rows' => .ok { df with rows := rows' }
    | .error e => .error e
  else .ok df

/-- Models `df[col] = pd.to_datetime(df[col], dayfirst=True)`; an absent column
    raises `KeyError`. -/
def convertDateCol (df : DF) (col : String) : Except String DF :=
  if col ∈ df.cols then
    match rowsMapE (fun r =>
      match alookup r col with
      | some cell =>
        match cellToDate cell with
        | some c' => .ok (dictInsert r col c')
        | none => .error "ParserError"
      | none => .error "KeyError") df.rows with
    | .ok rows' => .ok { df with rows := rows' }
    | .error e => .error e
  else .error "KeyError"

/-- Models `df[new] = f(df[a], df[b])` for the three derived-column statements.
    A missing operand column raises `KeyError`; a non-numeric operand
    raises `TypeError`.  The quotient is exact rational division (pandas
    produces IEEE infinity/NaN for a zero denominator instead of raising,
    so the success/failure boundary is identical; no claim consumes cells
    produced from a zero denominator). -/
def numAssign (df : DF) (new a b : String) (f : ℚ → ℚ → ℚ) : Except String DF :=
  if a ∈ df.cols ∧ b ∈ df.cols then
    match rowsMapE (fun r =>
      match alookup r a, alookup r b with
      | some (.q x), some (.q y) => .ok (dictInsert r new (.q (f x y)))
      | some _, some _ => .error "TypeError"
      | _, _ => .error "KeyError") df.rows with
    | .ok rows' =>
      .ok { cols := if new ∈ df.cols then df.cols else df.cols ++ [new], rows := rows' }
    | .error e => .error e
  else .error "KeyError"

/-- One statement of the load path, acting on the store. -/
abbrev LoadStep := RawStore → Except String RawStore

/-- Sequential statement execution; an exception aborts and `load_data`'s
    handler returns `False` with the store as mutated so far. -/
def runSteps : RawStore → List LoadStep → Bool × RawStore
  | st, [] => (true, st)
  | st, f :: fs =>
    match f st with
    | .error _ => (false, st)
    | .ok st' => runSteps st' fs

/-- Lifts a statement on `self.hound_internal`. -/
def onInternal (f : DF → Except String DF) : LoadStep := fun st =>
  match st.hound_internal with
  | some df => (f df).map (fun df' => { st with hound_internal := some df' })
  | none => .error "AttributeError"

/-- Lifts a statement on `self.hound_external`. -/
def onExternal (f : DF → Except String DF) : LoadStep := fun st =>
  match st.hound_external with
  | some df => (f df).map (fun df' => { st with hound_external := some df' })
  | none => .error "AttributeError"

/-- Models `pd.read_csv(path)` followed by the field assignment, modelled by the
    read's outcome (`none` = the read raised before assigning). -/
def readAssign (src : Option DF) (assign : RawStore → DF → RawStore) : LoadStep :=
  fun st =>
  match src with
  | some df => .ok (assign st df)
  | none => .error "read_csv"

/-- The eleven sequential statements of `load_data` + `_clean_data`:
    three reads/assignments, the three guarded internal price-column
    cleanings, the two date conversions guarded on the presence of
    `check_in`, and the three derived-column assignments. -/
def loadSteps (internal_src external_src extranet_src : Option DF) : List LoadStep :=
  [ readAssign internal_src (fun st df => { st with hound_internal := some df }),
    readAssign external_src (fun st df => { st with hound_external := some df }),
    readAssign extranet_src (fun st df => { st with extranet := some df }),
    onInternal (fun df => cleanPriceCol df "PamBaseRate ($)"),
    onInternal (fun df => cleanPriceCol df "ExpBaseRate ($)"),
    onInternal (fun df => cleanPriceCol df "HBGBaseRate ($)"),
    onExternal (fun df =>
      if "check_in" ∈ df.cols then convertDateCol df "check_in" else .ok df),
    onExternal (fun df =>
      if "check_in" ∈ df.cols then convertDateCol df "check_out" else .ok df),
    onExternal (fun df =>
      numAssign df "price_per_night_despegar" "price_despegar (USD)" "los"
        (fun x y => x / y)),
    onExternal (fun df =>
      numAssign df "price_per_night_competitor"
        "buyers_best_price_competitor_total (USD)" "los" (fun x y => x / y)),
    onExternal (fun df =>
      numAssign df "price_diff_pct" "buyers_best_price_competitor_total (USD)"
        "price_despegar (USD)" (fun x y => (x - y) / y * 100)) ]

/-- Models `DataProcessor.load_data`: run the statements, catch any exception. -/
def load_data (st : RawStore) (internal_src external_src extranet_src : Option DF) :
    Bool × RawStore :=
  runSteps st (loadSteps internal_src external_src extranet_src)

/-- The composite cleaning of the internal table (the three price-column
    statements in order). -/
def cleanInternal (df : DF) : Except String DF := do
  let df1 ← cleanPriceCol df "PamBaseRate ($)"
  let df2 ← cleanPriceCol df1 "ExpBaseRate ($)"
  cleanPriceCol df2 "HBGBaseRate ($)"

/-- The composite cleaning of the external table (date conversions and
    the three derived columns, in statement order). -/
def cleanExternal (df : DF) : Except String DF :=
  (if "check_in" ∈ df.cols then convertDateCol df "check_in" else .ok df).bind fun df1 =>
  (if "check_in" ∈ df1.cols then convertDateCol df1 "check_out" else .ok df1).bind fun df2 =>
  (numAssign df2 "price_per_night_despegar" "price_despegar (USD)" "los"
    (fun x y => x / y)).bind fun df3 =>
  (numAssign df3 "price_per_night_competitor"
    "buyers_best_price_competitor_total (USD)" "los" (fun x y => x / y)).bind fun df4 =>
  numAssign df4 "price_diff_pct" "buyers_best_price_competitor_total (USD)"
    "price_despegar (USD)" (fun x y => (x - y) / y * 100)

/-- A cell holding a parsed number. -/
def isQCell : Option Cell → Bool
  | some (.q _) => true
  | _ => false

/-- A cell acceptable to `astype(float)` after comma removal. -/
def floatableCell : Option Cell → Bool
  | some cell => (cellToFloat cell).isSome
  | none => false

/-- Every row of the frame holds a number in column `c`. -/
def colAllQ (df : DF) (c : String) : Prop :=
  ∀ r ∈ df.rows, isQCell (alookup r c) = true

/-- Every row of the frame holds a float-convertible cell in column `c`. -/
def colAllFloatable (df : DF) (c : String) : Prop :=
  ∀ r ∈ df.rows, floatableCell (alookup r c) = true

instance (df : DF) (c : String) : Decidable (colAllQ df c) :=
  inferInstanceAs (Decidable (∀ r ∈ df.rows, isQCell (alookup r c) = true))

instance (df : DF) (c : String) : Decidable (colAllFloatable df c) :=
  inferInstanceAs (Decidable (∀ r ∈ df.rows, floatableCell (alookup r c) = true))

/-- Internal-rates frame lacking the contracted-rate, currency and market
    columns claimed to be required. -/
def C2dfI : DF := ⟨["Nombre_Hotel"], [[("Nombre_Hotel", .s "H")]]⟩

/-- External-offers frame carrying only the three columns the cleaning
    pipeline actually touches unconditionally (no dates, party, market or
    agency columns). -/
def C2dfE : DF :=
  ⟨["price_despegar (USD)", "buyers_best_price_competitor_total (USD)", "los"],
   [[("price_despegar (USD)", .q 100),
     ("buyers_best_price_competitor_total (USD)", .q 110),
     ("los", .q 2)]]⟩

/-- Channel-configuration frame with none of the seven validator fields. -/
def C2dfX : DF := ⟨["Hotel"], [[("Hotel", .s "H")]]⟩

/-- Fresh store (no prior load). -/
def C2st : RawStore := ⟨none, none, none⟩

/-! ### Concrete frames and stores used by witnesses and counterexamples -/

/-- Concrete single-offer store for the C4 witness. -/
def C4row : ExtRow := ⟨"A", "AR", "ag", 1, 2, 2, 0, 3, 100, 110, 10⟩

/-- Concrete store for the C4 witness. -/
def C4store : Store := ⟨[], [C4row], []⟩

/-- Concrete rows for the C6 witness: two offers with identical gaps. -/
def C6row1 : ExtRow := ⟨"A", "AR", "ag", 1, 2, 2, 0, 3, 100, 110, 10⟩

/-- Second row of the C6 witness store. -/
def C6row2 : ExtRow := ⟨"A", "BR", "ag2", 5, 6, 1, 1, 2, 200, 220, 10⟩

/-- Concrete store for the C6 witness. -/
def C6store : Store := ⟨[], [C6row1, C6row2], []⟩

/-- Concrete row for the C7 witness: the hotel is 10 % cheaper. -/
def C7row : ExtRow := ⟨"A", "AR", "ag", 1, 2, 2, 0, 3, 100, 90, -10⟩

/-- Concrete store for the C7 witness. -/
def C7store : Store := ⟨[], [C7row], []⟩

/-- Concrete internal-rate row for the C8 witness. -/
def C8irow : IntRow := ⟨"A", "AR", 100, "USD"⟩

/-- Concrete store for the C8 witness. -/
def C8store : Store := ⟨[C8irow], [], []⟩

def C8match : MatchRec := ⟨"AR", 100, 115, 15, "USD"⟩

/-- Concrete offer row for the C3 store. -/
def C3row : ExtRow := ⟨"H", "AR", "ag", 1, 2, 2, 0, 3, 100, 110, 10⟩

/-- Concrete store for C3: the hotel has offers but no Extranet record. -/
def C3store : Store := ⟨[], [C3row], []⟩

/-- A frame whose single column is unrelated to the load pipeline. -/
def C1dfOld : DF := ⟨["c"], [[("c", .s "x")]]⟩

/-- A distinct frame for the replacement read. -/
def C1dfNew : DF := ⟨["d"], [[("d", .s "y")]]⟩

/-- A store holding prior data in all three tables. -/
def C1st : RawStore := ⟨some C1dfOld, some C1dfOld, some C1dfOld⟩

/-! ## Theorems -/

/-! ### Dictionary lemmas -/

theorem alookup_dictInsert_self {β : Type} (m : List (String × β)) (k : String) (v : β) :
    alookup (dictInsert m k v) k = some v := by
  induction m with
  | nil => simp [dictInsert, alookup]
  | cons p rest ih =>
    obtain ⟨k', v'⟩ := p
    by_cases h : k' = k
    · simp [dictInsert, h, alookup]
    · simp [dictInsert, h, alookup, ih]

theorem alookup_dictInsert_ne {β : Type} (m : List (String × β)) (k key : String)
    (v : β) (h : k ≠ key) : alookup (dictInsert m k v) key = alookup m key := by
  induction m with
  | nil => simp [dictInsert, alookup, h]
  | cons p rest ih =>
    obtain ⟨k', v'⟩ := p
    by_cases hk : k' = k
    · subst hk
      simp [dictInsert, alookup, h]
    · simp [dictInsert, hk, alookup, ih]

theorem keys_dictInsert {β : Type} (m : List (String × β)) (k : String) (v : β) :
    (dictInsert m k v).map Prod.fst =
      (if k ∈ m.map Prod.fst then m.map Prod.fst else m.map Prod.fst ++ [k]) := by
  induction m with
  | nil => simp [dictInsert]
  | cons p rest ih =>
    obtain ⟨k', v'⟩ := p
    by_cases h : k' = k
    · subst h
      simp [dictInsert]
    · have hne : ¬k = k' := fun hc => h hc.symm
      by_cases hmem : k ∈ rest.map Prod.fst
      · simp [dictInsert, h, ih, hmem, hne]
      · simp [dictInsert, h, ih, hmem, hne]

theorem keys_nodup_dictInsert {β : Type} (m : List (String × β)) (k : String) (v : β)
    (h : (m.map Prod.fst).Nodup) : ((dictInsert m k v).map Prod.fst).Nodup := by
  rw [keys_dictInsert]
  by_cases hmem : k ∈ m.map Prod.fst
  · simpa [hmem] using h
  · rw [if_neg hmem]
    refine List.Nodup.append h (List.nodup_singleton k) ?_
    intro a ha hb
    rw [List.mem_singleton] at hb
    subst hb
    exact hmem ha

/-- The dict built by the validator's loop: last record for a key wins. -/
theorem alookup_validator_fold (rows : List XRow) (k : String) :
    ∀ acc : List (String × VRec),
      alookup (rows.foldl (fun acc r => dictInsert acc r.hotel (validateRow r)) acc) k =
        match (rows.filter (fun r => r.hotel = k)).getLast? with
        | some r => some (validateRow r)
        | none => alookup acc k := by
  induction rows with
  | nil => intro acc; simp
  | cons r rs ih =>
    intro acc
    rw [List.foldl_cons, ih]
    by_cases hk : r.hotel = k
    · rw [List.filter_cons_of_pos (by simpa using hk)]
      rcases hfe : rs.filter (fun x => x.hotel = k) with _ | ⟨r', rest⟩
      · simp [hfe, hk, alookup_dictInsert_self]
      · rcases hgl : (r' :: rest).getLast? with _ | last
        · rw [List.getLast?_eq_none_iff] at hgl
          exact absurd hgl (by simp)
        · simp [hfe, hgl]
    · rw [List.filter_cons_of_neg (by simpa using hk)]
      rcases hfe : rs.filter (fun x => x.hotel = k) with _ | ⟨r', rest⟩
      · simp [hfe, alookup_dictInsert_ne _ _ _ _ hk]
      · rcases hgl : (r' :: rest).getLast? with _ | last
        · rw [List.getLast?_eq_none_iff] at hgl
          exact absurd hgl (by simp)
        · simp [hfe, hgl]

/-- Keys of the validator's dict are distinct. -/
theorem keys_nodup_validator_fold (rows : List XRow) :
    ∀ acc : List (String × VRec), (acc.map Prod.fst).Nodup →
      ((rows.foldl (fun acc r => dictInsert acc r.hotel (validateRow r)) acc).map
        Prod.fst).Nodup := by
  induction rows with
  | nil => intro acc h; simpa using h
  | cons r rs ih =>
    intro acc h
    rw [List.foldl_cons]
    exact ih _ (keys_nodup_dictInsert _ _ _ h)

/-- C10: the configuration validator's output keys each hotel at most
    once; with several Extranet records for one hotel, the reported entry
    is the record built from the last such row (dict insertion overwrites
    earlier entries), and the scorer's configuration component — which
    reads the mapping by lookup — therefore sees only the last record's
    score. -/
theorem C10_validator_last_wins (st : Store) (h : String) :
    ((validate_b2b_configuration st none).map Prod.fst).Nodup ∧
    ((validate_b2b_configuration st (some h)).map Prod.fst).Nodup ∧
    alookup (validate_b2b_configuration st (some h)) h =
      ((st.extranet.filter (fun r => r.hotel = h)).getLast?).map validateRow ∧
    alookup (validate_b2b_configuration st none) h =
      ((st.extranet.filter (fun r => r.hotel = h)).getLast?).map validateRow ∧
    b2bScore st h =
      ((((st.extranet.filter (fun r => r.hotel = h)).getLast?).map
        (fun r => (validateRow r).config_score)).getD 0 : ℚ) := by
  have hself : (st.extranet.filter (fun r => r.hotel = h)).filter
      (fun r => r.hotel = h) = st.extranet.filter (fun r => r.hotel = h) := by
    rw [List.filter_filter]
    simp
  have hlook_some : alookup (validate_b2b_configuration st (some h)) h =
      ((st.extranet.filter (fun r => r.hotel = h)).getLast?).map validateRow := by
    unfold validate_b2b_configuration
    rw [alookup_validator_fold _ _ _, hself]
    cases (st.extranet.filter (fun r => r.hotel = h)).getLast? <;> rfl
  have hlook_none : alookup (validate_b2b_configuration st none) h =
      ((st.extranet.filter (fun r => r.hotel = h)).getLast?).map validateRow := by
    unfold validate_b2b_configuration
    rw [alookup_validator_fold _ _ _]
    cases (st.extranet.filter (fun r => r.hotel = h)).getLast? <;> rfl
  refine ⟨?_, ?_, hlook_some, hlook_none, ?_⟩
  · unfold validate_b2b_configuration
    exact keys_nodup_validator_fold _ _ (by simp)
  · unfold validate_b2b_configuration
    exact keys_nodup_validator_fold _ _ (by simp)
  · unfold b2bScore
    by_cases hbv : (validate_b2b_configuration st (some h)).isEmpty
    · have hnil : validate_b2b_configuration st (some h) = [] :=
        List.isEmpty_iff.mp hbv
      have : ((st.extranet.filter (fun r => r.hotel = h)).getLast?).map validateRow
          = none := by rw [← hlook_some, hnil]; rfl
      have hgl : (st.extranet.filter (fun r => r.hotel = h)).getLast? = none :=
        Option.map_eq_none'.mp this
      simp [hbv, hgl]
    · rw [if_neg (by simpa using hbv), hlook_some]
      cases (st.extranet.filter (fun r => r.hotel = h)).getLast? <;> rfl

/-- C5: for every configuration record, the stored score is
    `(passing checks)/7 × 100` rounded to one decimal; the status tiers
    are closed at 85 and 70 (tested on the unrounded multiple of 100/7);
    and a record failing only the API check scores 85.7, has status
    "optimal", and lists exactly the API check as its critical issue. -/
theorem C5_validator_score (r : XRow) :
    (validateRow r).config_score = round1 (((rowVals r).count : ℚ) / 7 * 100) ∧
    ((validateRow r).status = "optimal" ↔ ((rowVals r).count : ℚ) / 7 * 100 ≥ 85) ∧
    ((validateRow r).status = "good" ↔
      (((rowVals r).count : ℚ) / 7 * 100 ≥ 70 ∧ ((rowVals r).count : ℚ) / 7 * 100 < 85)) ∧
    ((validateRow r).status = "critical" ↔ ((rowVals r).count : ℚ) / 7 * 100 < 70) ∧
    ((validateRow r).priority =
      if ((rowVals r).count : ℚ) / 7 * 100 ≥ 85 then "low"
      else if ((rowVals r).count : ℚ) / 7 * 100 ≥ 70 then "medium" else "high") ∧
    (rowVals r = ⟨false, true, true, true, true, true, true⟩ →
      (validateRow r).config_score = 857/10 ∧ (validateRow r).status = "optimal" ∧
        (validateRow r).critical_issues = ["API no configurado"]) := by
  have hs : (validateRow r).status =
      (if ((rowVals r).count : ℚ) / 7 * 100 ≥ 85 then "optimal"
       else if ((rowVals r).count : ℚ) / 7 * 100 ≥ 70 then "good" else "critical") := rfl
  refine ⟨rfl, ?_, ?_, ?_, rfl, ?_⟩
  · rw [hs]; split_ifs with h1 h2
    · exact iff_of_true rfl h1
    · exact iff_of_false (by decide) h1
    · exact iff_of_false (by decide) h1
  · rw [hs]; split_ifs with h1 h2
    · exact iff_of_false (by decide) (fun hc => absurd h1 (not_le.mpr hc.2))
    · exact iff_of_true rfl ⟨h2, not_le.mp h1⟩
    · exact iff_of_false (by decide) (fun hc => h2 hc.1)
  · rw [hs]; split_ifs with h1 h2
    · exact iff_of_false (by decide)
        (fun hc => absurd h1 (not_le.mpr (hc.trans_le (by norm_num))))
    · exact iff_of_false (by decide) (fun hc => absurd h2 (not_le.mpr hc))
    · exact iff_of_true rfl (not_le.mp h2)
  · intro hv
    have hc : (rowVals r).count = 6 := by rw [hv]; rfl
    refine ⟨?_, ?_, ?_⟩
    · show round1 (((rowVals r).count : ℚ) / 7 * 100) = 857/10
      rw [hc]
      have h6 : (((6:ℕ) : ℚ)) / 7 * 100 = 600/7 := by norm_num
      rw [h6]
      unfold round1 pyRound
      rw [(by unfold Int.fract
              rw [(by rw [Int.floor_eq_iff]; norm_num : ⌊(10:ℚ) * (600/7)⌋ = 857)]
              norm_num : Int.fract ((10:ℚ) * (600/7)) = 1/7)]
      rw [if_pos (by norm_num),
        (by rw [Int.floor_eq_iff]; norm_num : ⌊(10:ℚ) * (600/7)⌋ = 857)]
      norm_num
    · rw [hs, hc, if_pos (by norm_num)]
    · show criticalIssues (rowVals r) = ["API no configurado"]
      rw [hv]
      rfl

/-! ### Lemmas on first-occurrence deduplication -/

theorem dedupFirst_foldl_length {α : Type} [DecidableEq α] (l : List α) :
    ∀ acc : List α,
      (l.foldl (fun acc x => if x ∈ acc then acc else acc ++ [x]) acc).length ≤
        acc.length + l.length := by
  induction l with
  | nil => intro acc; simp
  | cons x xs ih =>
    intro acc
    rw [List.foldl_cons]
    refine le_trans (ih _) ?_
    by_cases hx : x ∈ acc
    · rw [if_pos hx, List.length_cons]
      omega
    · rw [if_neg hx, List.length_append, List.length_cons]
      simp
      omega

theorem dedupFirst_length_le {α : Type} [DecidableEq α] (l : List α) :
    (dedupFirst l).length ≤ l.length := by
  have := dedupFirst_foldl_length l []
  simpa [dedupFirst] using this

theorem dedupFirst_foldl_nodup {α : Type} [DecidableEq α] (l : List α) :
    ∀ acc : List α, acc.Nodup →
      (l.foldl (fun acc x => if x ∈ acc then acc else acc ++ [x]) acc).Nodup := by
  induction l with
  | nil => intro acc h; simpa using h
  | cons x xs ih =>
    intro acc h
    rw [List.foldl_cons]
    refine ih _ ?_
    by_cases hx : x ∈ acc
    · simpa [hx] using h
    · rw [if_neg hx]
      refine List.Nodup.append h (List.nodup_singleton x) ?_
      intro a ha hb
      rw [List.mem_singleton] at hb
      subst hb
      exact hx ha

theorem dedupFirst_nodup {α : Type} [DecidableEq α] (l : List α) :
    (dedupFirst l).Nodup :=
  dedupFirst_foldl_nodup l [] List.nodup_nil

theorem dedupFirst_foldl_mem {α : Type} [DecidableEq α] (l : List α) (a : α) :
    ∀ acc : List α,
      (a ∈ l.foldl (fun acc x => if x ∈ acc then acc else acc ++ [x]) acc ↔
        a ∈ acc ∨ a ∈ l) := by
  induction l with
  | nil => intro acc; simp
  | cons x xs ih =>
    intro acc
    rw [List.foldl_cons, ih]
    by_cases hx : x ∈ acc
    · by_cases hax : a = x
      · subst hax
        simp [hx]
      · simp [hx, hax]
    · by_cases hax : a = x
      · subst hax
        simp [hx]
      · simp [hx, hax, or_assoc]

theorem mem_dedupFirst {α : Type} [DecidableEq α] (l : List α) (a : α) :
    a ∈ dedupFirst l ↔ a ∈ l := by
  have := dedupFirst_foldl_mem l a []
  simpa [dedupFirst] using this

/-! ### Component bounds for the scorer -/

theorem availability_score_bounds (data : List ExtRow) :
    0 ≤ availability_score data ∧ availability_score data ≤ 100 := by
  unfold availability_score uniqueCombos
  have hpos : (0:ℚ) < max 1 (data.length : ℚ) := lt_of_lt_of_le one_pos (le_max_left _ _)
  have hu : ((dedupFirst (data.map fun r =>
      (r.pos, r.check_in, r.check_out, r.adults, r.children))).length : ℚ) ≤
      (data.length : ℚ) := by
    have h1 := dedupFirst_length_le (data.map fun r =>
      (r.pos, r.check_in, r.check_out, r.adults, r.children))
    rw [List.length_map] at h1
    exact_mod_cast h1
  constructor
  · positivity
  · have hle : ((dedupFirst (data.map fun r =>
        (r.pos, r.check_in, r.check_out, r.adults, r.children))).length : ℚ) /
        max 1 (data.length : ℚ) ≤ 1 := by
      rw [div_le_one hpos]
      exact le_trans hu (le_max_right _ _)
    nlinarith

theorem consistency_score_bounds (gaps : List ℚ) :
    0 ≤ consistency_score gaps ∧ consistency_score gaps ≤ 100 := by
  unfold consistency_score
  rcases hv : sampleVar gaps with _ | v
  · norm_num
  · constructor
    · exact le_max_left 0 _
    · refine max_le (by norm_num) ?_
      have := Real.sqrt_nonneg (v : ℝ)
      linarith

theorem Vals_count_le_seven (v : Vals) : v.count ≤ 7 := by
  have hb : ∀ b : Bool, b.toNat ≤ 1 := fun b => by cases b <;> decide
  unfold Vals.count
  have h1 := hb v.api_configured
  have h2 := hb v.html_configured
  have h3 := hb v.wrapper_configured
  have h4 := hb v.prepago_configured
  have h5 := hb v.rate_type_valid
  have h6 := hb v.has_markets
  have h7 := hb v.good_availability
  omega

theorem config_score_bounds (r : XRow) :
    0 ≤ (validateRow r).config_score ∧ (validateRow r).config_score ≤ 100 := by
  have hcount : ((rowVals r).count : ℚ) ≤ 7 := by
    exact_mod_cast Vals_count_le_seven (rowVals r)
  have h0 : (0:ℚ) ≤ ((rowVals r).count : ℚ) := by positivity
  have : (validateRow r).config_score = round1 (((rowVals r).count : ℚ) / 7 * 100) := rfl
  rw [this]
  exact round1_bounds _ (by positivity) (by nlinarith)

/-- The lookup into the validator's one-hotel dict returns the last
    matching Extranet record's entry (helper shared by several claims). -/
theorem alookup_validate_some (st : Store) (h : String) :
    alookup (validate_b2b_configuration st (some h)) h =
      ((st.extranet.filter (fun r => r.hotel = h)).getLast?).map validateRow := by
  have hself : (st.extranet.filter (fun r => r.hotel = h)).filter
      (fun r => r.hotel = h) = st.extranet.filter (fun r => r.hotel = h) := by
    rw [List.filter_filter]
    simp
  unfold validate_b2b_configuration
  rw [alookup_validator_fold _ _ _, hself]
  cases (st.extranet.filter (fun r => r.hotel = h)).getLast? <;> rfl

theorem b2bScore_bounds (st : Store) (h : String) :
    0 ≤ b2bScore st h ∧ b2bScore st h ≤ 100 := by
  unfold b2bScore
  by_cases hbv : (validate_b2b_configuration st (some h)).isEmpty
  · rw [if_pos hbv]
    norm_num
  · rw [if_neg hbv, alookup_validate_some]
    have hall : ∀ o : Option XRow,
        0 ≤ (((o.map validateRow).map VRec.config_score).getD 0 : ℚ) ∧
          (((o.map validateRow).map VRec.config_score).getD 0 : ℚ) ≤ 100 := by
      intro o
      cases o with
      | none => norm_num
      | some r => simpa using config_score_bounds r
    exact hall _

/-- C4: the competitiveness score always lies in [0, 100]; a hotel with no
    external offer rows scores exactly 0; and with a single offer row the
    undefined (NaN) standard deviation makes the consistency component
    clamp to its floor 0 instead of propagating into the weighted sum. -/
theorem C4_score_range (st : Store) (h : String) :
    (0 ≤ calculate_competitiveness_score st h ∧
      calculate_competitiveness_score st h ≤ 100) ∧
    (st.hound_external.filter (fun r => r.hotel = h) = [] →
      calculate_competitiveness_score st h = 0) ∧
    (∀ r : ExtRow, st.hound_external.filter (fun r => r.hotel = h) = [r] →
      consistency_score ((st.hound_external.filter (fun r => r.hotel = h)).map
        ExtRow.gap) = 0) := by
  refine ⟨?_, ?_, ?_⟩
  · simp only [calculate_competitiveness_score]
    by_cases hemp : (st.hound_external.filter (fun r => r.hotel = h)).isEmpty
    · rw [if_pos hemp]
      norm_num
    · rw [if_neg hemp]
      have hp : (0:ℚ) ≤ max 0 (min 100 (50 - qmean ((st.hound_external.filter
          (fun r => r.hotel = h)).map ExtRow.gap))) ∧
          max 0 (min 100 (50 - qmean ((st.hound_external.filter
            (fun r => r.hotel = h)).map ExtRow.gap))) ≤ 100 :=
        ⟨le_max_left _ _, max_le (by norm_num) (le_trans (min_le_left _ _) (by norm_num))⟩
      have ha := availability_score_bounds (st.hound_external.filter (fun r => r.hotel = h))
      have hcs := consistency_score_bounds ((st.hound_external.filter
        (fun r => r.hotel = h)).map ExtRow.gap)
      have hb := b2bScore_bounds st h
      refine round2_bounds _ ?_ ?_
      · have h1 : (0:ℝ) ≤ ((max 0 (min 100 (50 - qmean ((st.hound_external.filter
            (fun r => r.hotel = h)).map ExtRow.gap))) : ℚ) : ℝ) := by exact_mod_cast hp.1
        have h2 : (0:ℝ) ≤ ((availability_score (st.hound_external.filter
            (fun r => r.hotel = h)) : ℚ) : ℝ) := by exact_mod_cast ha.1
        have h3 := hcs.1
        have h4 : (0:ℝ) ≤ ((b2bScore st h : ℚ) : ℝ) := by exact_mod_cast hb.1
        linarith
      · have h1 : ((max 0 (min 100 (50 - qmean ((st.hound_external.filter
            (fun r => r.hotel = h)).map ExtRow.gap))) : ℚ) : ℝ) ≤ 100 := by
          exact_mod_cast hp.2
        have h2 : ((availability_score (st.hound_external.filter
            (fun r => r.hotel = h)) : ℚ) : ℝ) ≤ 100 := by exact_mod_cast ha.2
        have h3 := hcs.2
        have h4 : ((b2bScore st h : ℚ) : ℝ) ≤ 100 := by exact_mod_cast hb.2
        linarith
  · intro hnil
    simp [calculate_competitiveness_score, hnil]
  · intro r hr
    rw [hr]
    simp [consistency_score, sampleVar]
/-- Witness for C4: a hotel absent from the offers scores 0, and a hotel
    with one offer row has consistency component 0. -/
theorem C4_score_range_witness :
    (C4store.hound_external.filter (fun r => r.hotel = "B") = [] ∧
      calculate_competitiveness_score C4store "B" = 0) ∧
    (C4store.hound_external.filter (fun r => r.hotel = "A") = [C4row] ∧
      consistency_score ((C4store.hound_external.filter (fun r => r.hotel = "A")).map
        ExtRow.gap) = 0) :=
  ⟨⟨rfl, (C4_score_range C4store "B").2.1 rfl⟩,
    ⟨rfl, (C4_score_range C4store "A").2.2 C4row rfl⟩⟩

/-- C6: for every hotel and every threshold, the anomaly detector returns
    the empty list when the hotel's offer set has fewer than two rows or
    all its price gaps are identical (the standard deviation is zero or
    undefined, so every z-score is NaN and no comparison succeeds). -/
theorem C6_anomaly_degenerate (st : Store) (h : String) (t : ℚ)
    (hdeg : ((st.hound_external.filter (fun r => r.hotel = h)).map ExtRow.gap).length < 2 ∨
      ∃ c : ℚ, ∀ g ∈ (st.hound_external.filter (fun r => r.hotel = h)).map ExtRow.gap,
        g = c) :
    identify_pricing_anomalies st h t = [] := by
  simp only [identify_pricing_anomalies]
  by_cases hemp : (st.hound_external.filter (fun r => r.hotel = h)).isEmpty
  · rw [if_pos hemp]
  · rw [if_neg hemp]
    have hne : (st.hound_external.filter (fun r => r.hotel = h)).map ExtRow.gap ≠ [] := by
      intro hc
      rw [List.map_eq_nil] at hc
      rw [hc] at hemp
      simp at hemp
    have hfil : (st.hound_external.filter (fun r => r.hotel = h)).filter
        (fun r => zGT (sampleVar ((st.hound_external.filter
          (fun x => x.hotel = h)).map ExtRow.gap))
          (qmean ((st.hound_external.filter (fun x => x.hotel = h)).map ExtRow.gap))
          r.gap t) = [] := by
      rw [List.filter_eq_nil_iff]
      intro r hr
      rcases hdeg with hlen | ⟨c, hc⟩
      · have hv : sampleVar ((st.hound_external.filter
            (fun x => x.hotel = h)).map ExtRow.gap) = none := by
          unfold sampleVar
          rw [if_pos hlen]
        simp [zGT, hv]
      · by_cases hlen : ((st.hound_external.filter
            (fun x => x.hotel = h)).map ExtRow.gap).length < 2
        · have hv : sampleVar ((st.hound_external.filter
              (fun x => x.hotel = h)).map ExtRow.gap) = none := by
            unfold sampleVar
            rw [if_pos hlen]
          simp [zGT, hv]
        · have hv : sampleVar ((st.hound_external.filter
              (fun x => x.hotel = h)).map ExtRow.gap) = some 0 :=
            sampleVar_const c _ (by omega) hc
          have hm : qmean ((st.hound_external.filter
              (fun x => x.hotel = h)).map ExtRow.gap) = c :=
            qmean_const c _ hne hc
          have hg : r.gap = c := hc r.gap (List.mem_map.mpr ⟨r, hr, rfl⟩)
          simp [zGT, hv, hm, hg]
    rw [hfil]
    rfl
/-- Witness for C6: two offer rows with identical gaps produce no
    anomalies at the default threshold. -/
theorem C6_anomaly_degenerate_witness :
    (∃ c : ℚ, ∀ g ∈ (C6store.hound_external.filter
      (fun r => r.hotel = "A")).map ExtRow.gap, g = c) ∧
    identify_pricing_anomalies C6store "A" 2 = [] :=
  ⟨⟨10, by decide⟩,
    C6_anomaly_degenerate C6store "A" 2 (Or.inr ⟨10, by decide⟩)⟩

/-- The classification stored by `mkOpp`, with the projection pushed
    through the branch. -/
theorem mkOpp_type (l : List ExtRow) : (mkOpp l).opportunity_type =
    (if qmean (l.map ExtRow.gap) < -5 then "Subir precios"
     else if qmean (l.map ExtRow.gap) > 10 then "Bajar precios" else "Monitorear") := by
  show (if qmean (l.map ExtRow.gap) < -5 then ("Subir precios", "Media")
    else if qmean (l.map ExtRow.gap) > 10 then ("Bajar precios", "Alta")
    else ("Monitorear", "Baja")).1 = _
  split_ifs <;> rfl

/-- The priority stored by `mkOpp`. -/
theorem mkOpp_priority (l : List ExtRow) : (mkOpp l).priority =
    (if qmean (l.map ExtRow.gap) < -5 then "Media"
     else if qmean (l.map ExtRow.gap) > 10 then "Alta" else "Baja") := by
  show (if qmean (l.map ExtRow.gap) < -5 then ("Subir precios", "Media")
    else if qmean (l.map ExtRow.gap) > 10 then ("Bajar precios", "Alta")
    else ("Monitorear", "Baja")).2 = _
  split_ifs <;> rfl

/-- C7: the classifier outputs exactly one entry per distinct market of
    the hotel's offer rows (empty offers give the empty mapping, not an
    error), and each market's type/priority is determined by its mean
    gap: mean < −5 ⟺ "Subir precios"/"Media", mean > 10 ⟺
    "Bajar precios"/"Alta", otherwise "Monitorear"/"Baja". -/
theorem C7_opportunities (st : Store) (h : String) :
    (st.hound_external.filter (fun r => r.hotel = h) = [] →
      analyze_market_opportunities st h = []) ∧
    ((analyze_market_opportunities st h).map Prod.fst =
      dedupFirst ((st.hound_external.filter (fun r => r.hotel = h)).map ExtRow.pos)) ∧
    ((analyze_market_opportunities st h).map Prod.fst).Nodup ∧
    (∀ pos rec, (pos, rec) ∈ analyze_market_opportunities st h →
      (rec.opportunity_type = "Subir precios" ↔
        qmean (((st.hound_external.filter (fun r => r.hotel = h)).filter
          (fun r => r.pos = pos)).map ExtRow.gap) < -5) ∧
      (rec.opportunity_type = "Bajar precios" ↔
        qmean (((st.hound_external.filter (fun r => r.hotel = h)).filter
          (fun r => r.pos = pos)).map ExtRow.gap) > 10) ∧
      (rec.opportunity_type = "Monitorear" ↔
        (¬ qmean (((st.hound_external.filter (fun r => r.hotel = h)).filter
            (fun r => r.pos = pos)).map ExtRow.gap) < -5 ∧
         ¬ qmean (((st.hound_external.filter (fun r => r.hotel = h)).filter
            (fun r => r.pos = pos)).map ExtRow.gap) > 10)) ∧
      rec.priority =
        (if qmean (((st.hound_external.filter (fun r => r.hotel = h)).filter
            (fun r => r.pos = pos)).map ExtRow.gap) < -5 then "Media"
         else if qmean (((st.hound_external.filter (fun r => r.hotel = h)).filter
            (fun r => r.pos = pos)).map ExtRow.gap) > 10 then "Alta" else "Baja")) := by
  have hkeys : (analyze_market_opportunities st h).map Prod.fst =
      dedupFirst ((st.hound_external.filter (fun r => r.hotel = h)).map ExtRow.pos) := by
    simp only [analyze_market_opportunities]
    by_cases hemp : (st.hound_external.filter (fun r => r.hotel = h)).isEmpty
    · rw [if_pos hemp]
      have hnil : st.hound_external.filter (fun r => r.hotel = h) = [] :=
        List.isEmpty_iff.mp hemp
      simp [hnil, dedupFirst]
    · rw [if_neg hemp]
      rw [List.map_map]
      have hcomp : (Prod.fst ∘ fun pos =>
          (pos, mkOpp ((st.hound_external.filter (fun r => r.hotel = h)).filter
            (fun r => r.pos = pos)))) = fun x : String => x := rfl
      rw [hcomp, List.map_id']
  refine ⟨?_, hkeys, ?_, ?_⟩
  · intro hnil
    simp [analyze_market_opportunities, hnil]
  · rw [hkeys]
    exact dedupFirst_nodup _
  · intro pos rec hmem
    simp only [analyze_market_opportunities] at hmem
    by_cases hemp : (st.hound_external.filter (fun r => r.hotel = h)).isEmpty
    · rw [if_pos hemp] at hmem
      exact absurd hmem (List.not_mem_nil _)
    · rw [if_neg hemp] at hmem
      rcases List.mem_map.mp hmem with ⟨p, _, heq⟩
      rw [Prod.mk.injEq] at heq
      obtain ⟨hp, hrec⟩ := heq
      subst hp
      subst hrec
      rw [mkOpp_type, mkOpp_priority]
      refine ⟨?_, ?_, ?_, rfl⟩
      · split_ifs with h1 h2
        · exact iff_of_true rfl h1
        · exact iff_of_false (by decide) h1
        · exact iff_of_false (by decide) h1
      · split_ifs with h1 h2
        · exact iff_of_false (by decide)
            (fun hc => absurd (lt_trans (by norm_num) hc) (not_lt.mpr (le_of_lt h1)))
        · exact iff_of_true rfl h2
        · exact iff_of_false (by decide) h2
      · split_ifs with h1 h2
        · exact iff_of_false (by decide) (fun hc => hc.1 h1)
        · exact iff_of_false (by decide) (fun hc => hc.2 h2)
        · exact iff_of_true rfl ⟨h1, h2⟩
/-- Witness for C7 at a one-market store. -/
theorem C7_opportunities_witness :
    ("AR", mkOpp [C7row]) ∈ analyze_market_opportunities C7store "A" ∧
    ((mkOpp [C7row]).opportunity_type = "Subir precios" ↔
      qmean (((C7store.hound_external.filter (fun r => r.hotel = "A")).filter
        (fun r => r.pos = "AR")).map ExtRow.gap) < -5) := by
  have hmem : ("AR", mkOpp [C7row]) ∈ analyze_market_opportunities C7store "A" := by
    rw [show analyze_market_opportunities C7store "A" = [("AR", mkOpp [C7row])] from rfl]
    exact List.mem_singleton_self _
  exact ⟨hmem, (C7_opportunities C7store "A").2.2.2 "AR" (mkOpp [C7row]) hmem |>.1⟩

/-! ### Rounding of integer-valued arguments (for concrete evaluations) -/

theorem pyRound_intCast {α : Type} [LinearOrderedField α] [FloorRing α]
    [DecidableRel ((· < ·) : α → α → Prop)] (n : ℤ) : pyRound ((n : α)) = n := by
  unfold pyRound
  rw [Int.fract_intCast]
  rw [if_pos (by norm_num)]
  exact Int.floor_intCast n

theorem round2_intCast {α : Type} [LinearOrderedField α] [FloorRing α]
    [DecidableRel ((· < ·) : α → α → Prop)] (n : ℤ) : round2 ((n : α)) = n := by
  unfold round2
  have h : (100 : α) * n = ((100 * n : ℤ) : α) := by push_cast; ring
  rw [h, pyRound_intCast]
  push_cast
  field_simp

/-! ### C8: cross-market correlator -/

/-- C8: the correlator returns its matches sorted ascending by difference
    percentage; a contracted rate whose difference is within the closed
    15 % bound (in particular exactly 15.0 %) is included; and a hotel
    with no internal-rate rows gets a structured negative result with
    `match_found = false` instead of a failure. -/
theorem C8_cross_market (st : Store) (p : ℚ) (h : String) :
    (st.hound_internal.filter (fun r => r.hotel = h) = [] →
      cross_market_analysis st p h =
        ⟨false, none, "Hotel no encontrado en datos internos"⟩) ∧
    (∀ l, (cross_market_analysis st p h).match_list = some l →
      List.Sorted matchLE l ∧
      ((cross_market_analysis st p h).match_found = true ↔ l ≠ [])) ∧
    (∀ r ∈ st.hound_internal.filter (fun r => r.hotel = h), r.pam ≠ 0 →
      |(p - r.pam) / r.pam * 100| ≤ 15 →
      ∀ l, (cross_market_analysis st p h).match_list = some l →
        ({ pos := r.pos, pam_rate := r.pam, external_price := p,
           difference_pct := round2 |(p - r.pam) / r.pam * 100|,
           currency := r.currency } : MatchRec) ∈ l) := by
  refine ⟨?_, ?_, ?_⟩
  · intro hnil
    simp [cross_market_analysis, hnil]
  · intro l hl
    simp only [cross_market_analysis] at hl ⊢
    by_cases hemp : (st.hound_internal.filter (fun r => r.hotel = h)).isEmpty
    · rw [if_pos hemp] at hl
      exact absurd hl (by simp)
    · rw [if_neg hemp] at hl ⊢
      have hsort := Option.some.inj hl
      constructor
      · rw [← hsort]
        exact List.sorted_insertionSort matchLE _
      · have hperm := List.perm_insertionSort matchLE
          ((st.hound_internal.filter (fun r => r.hotel = h)).filterMap (rowMatch p))
        constructor
        · intro hfound hnil
          rw [← hsort] at hnil
          have hlen : ((st.hound_internal.filter (fun r => r.hotel = h)).filterMap
              (rowMatch p)).length = 0 := by
            rw [← hperm.length_eq, hnil]
            rfl
          simp only [decide_eq_true_eq] at hfound
          omega
        · intro hne
          rw [← hsort] at hne
          have hlen : 0 < ((st.hound_internal.filter (fun r => r.hotel = h)).filterMap
              (rowMatch p)).length := by
            rw [← hperm.length_eq]
            exact List.length_pos.mpr hne
          simp only [decide_eq_true_eq]
          exact hlen
  · intro r hr hpam hdiff l hl
    simp only [cross_market_analysis] at hl
    by_cases hemp : (st.hound_internal.filter (fun r => r.hotel = h)).isEmpty
    · rw [if_pos hemp] at hl
      exact absurd hl (by simp)
    · rw [if_neg hemp] at hl
      have hsort := Option.some.inj hl
      rw [← hsort, List.mem_insertionSort]
      refine List.mem_filterMap.mpr ⟨r, hr, ?_⟩
      unfold rowMatch
      rw [if_neg hpam, if_pos hdiff]
/-- The match produced for an observed price of 115 against the 100
    contracted rate: a difference of exactly 15 %, included. -/
theorem C8_rowMatch_eval : rowMatch 115 C8irow = some C8match := by
  unfold rowMatch C8irow
  rw [if_neg (by norm_num)]
  have habs : |((115:ℚ) - 100) / 100 * 100| = 15 := by norm_num
  rw [if_pos (by rw [habs])]
  rw [show round2 |((115:ℚ) - 100) / 100 * 100| = 15 from by
    rw [habs]; exact_mod_cast round2_intCast (α := ℚ) 15]
  rfl

theorem C8_match_list_eval :
    (cross_market_analysis C8store 115 "A").match_list = some [C8match] := by
  simp only [cross_market_analysis]
  rw [if_neg (by decide)]
  show some (List.insertionSort matchLE
    ((C8store.hound_internal.filter (fun r => r.hotel = "A")).filterMap (rowMatch 115))) = _
  rw [show C8store.hound_internal.filter (fun r => r.hotel = "A") = [C8irow] from rfl]
  rw [List.filterMap_cons, C8_rowMatch_eval]
  rfl

/-- Witness for C8: a contracted rate at exactly the 15 % boundary is
    matched and returned in the sorted match list. -/
theorem C8_cross_market_witness :
    |((115:ℚ) - C8irow.pam) / C8irow.pam * 100| ≤ 15 ∧
    (cross_market_analysis C8store 115 "A").match_list = some [C8match] ∧
    List.Sorted matchLE [C8match] ∧
    ({ pos := C8irow.pos, pam_rate := C8irow.pam, external_price := 115,
       difference_pct := round2 |((115:ℚ) - C8irow.pam) / C8irow.pam * 100|,
       currency := C8irow.currency } : MatchRec) ∈ [C8match] := by
  have hd : |((115:ℚ) - C8irow.pam) / C8irow.pam * 100| ≤ 15 := by
    show |((115:ℚ) - 100) / 100 * 100| ≤ 15
    norm_num
  refine ⟨hd, C8_match_list_eval, ?_, ?_⟩
  · exact (C8_cross_market C8store 115 "A").2.1 [C8match] C8_match_list_eval |>.1
  · exact (C8_cross_market C8store 115 "A").2.2 C8irow (by decide)
      (by show (100:ℚ) ≠ 0; norm_num) hd [C8match] C8_match_list_eval

/-! ### C3: the simulator's conversion estimate -/
/-- Counterexample to C3 as stated: for a hotel with no configuration
    record the code uses configuration multiplier 1.0 (the default is
    only replaced when the lookup succeeds), so a +10 % change yields an
    estimated conversion change of −10, not the −5 the claim's
    "score 0, multiplier 0.5" reading would give. -/
theorem C3_absent_config_cex :
    alookup (validate_b2b_configuration C3store (some "H")) "H" = none ∧
    (simulate_conversion_impact C3store "H" 10).map
      (fun r => r.estimated_conversion_change_pct) = .ok (-10) ∧
    ((-10 : ℚ) ≠ round2 ((10:ℚ) * (-2) * (1/2) * (1/2 + 0/100 * (1/2)))) := by
  refine ⟨rfl, ?_, ?_⟩
  · simp only [simulate_conversion_impact]
    rw [if_neg (by decide)]
    simp only [Except.map]
    rw [show alookup (validate_b2b_configuration C3store (some "H")) "H" = none from rfl]
    rw [show ((10:ℚ) * (-2) * (1/2 * 1)) = ((-10 : ℤ) : ℚ) from by norm_num]
    rw [round2_intCast]
    norm_num
  · rw [show ((10:ℚ) * (-2) * (1/2) * (1/2 + 0/100 * (1/2))) = ((-5 : ℤ) : ℚ) from by
      norm_num]
    rw [round2_intCast]
    norm_num

/-- C3 (amended): for a hotel present in the external offers, the
    estimated conversion change is `round2((Δ × −2) × 0.5 × m)` where the
    configuration multiplier is `m = 0.5 + (config_score/100) × 0.5` when
    the validator has a record for the hotel and `m = 1.0` (the untouched
    default) when it does not. -/
theorem C3_conversion_formula (st : Store) (h : String) (pct : ℚ)
    (hne : st.hound_external.filter (fun r => r.hotel = h) ≠ []) :
    (simulate_conversion_impact st h pct).map
      (fun r => r.estimated_conversion_change_pct) =
    .ok (round2 (pct * (-2) * (1/2) *
      (match alookup (validate_b2b_configuration st (some h)) h with
       | some rec => 1/2 + rec.config_score / 100 * (1/2)
       | none => 1))) := by
  simp only [simulate_conversion_impact]
  rw [if_neg (by simpa [List.isEmpty_iff] using hne)]
  simp only [Except.map]
  rcases alookup (validate_b2b_configuration st (some h)) h with _ | rec <;>
    exact congrArg Except.ok (congrArg round2 (by ring))

/-- Witness for the amended C3 at the concrete store. -/
theorem C3_conversion_formula_witness :
    C3store.hound_external.filter (fun r => r.hotel = "H") ≠ [] ∧
    (simulate_conversion_impact C3store "H" 10).map
      (fun r => r.estimated_conversion_change_pct) =
      .ok (round2 ((10:ℚ) * (-2) * (1/2) *
        (match alookup (validate_b2b_configuration C3store (some "H")) "H" with
         | some rec => 1/2 + rec.config_score / 100 * (1/2)
         | none => 1))) :=
  ⟨by decide, C3_conversion_formula C3store "H" 10 (by decide)⟩

/-! ### C9: queries do not mutate the store -/

/-- C9: the scorer, classifier, detector, correlator and simulator are
    read-only over the store: each call returns its result alongside an
    unchanged store.  (The detector's z-score column is attached to the
    copy produced by boolean-mask filtering, not to the stored external
    table; no method assigns to any of the three table fields.) -/
theorem C9_queries_readonly (st : Store) (h : String) (t pct p : ℚ) :
    (calculate_competitiveness_score_call st h).2 = st ∧
    (analyze_market_opportunities_call st h).2 = st ∧
    (identify_pricing_anomalies_call st h t).2 = st ∧
    (cross_market_analysis_call st p h).2 = st ∧
    (simulate_conversion_impact_call st h pct).2 = st :=
  ⟨rfl, rfl, rfl, rfl, rfl⟩

/-! ### Load-layer lemmas -/

theorem runSteps_cons_true (st st' : RawStore) (f : LoadStep) (fs : List LoadStep)
    (h : runSteps st (f :: fs) = (true, st')) :
    ∃ s1, f st = .ok s1 ∧ runSteps s1 fs = (true, st') := by
  unfold runSteps at h
  rcases hf : f st with e | s1
  · rw [hf] at h
    exact absurd h (by simp)
  · rw [hf] at h
    exact ⟨s1, rfl, h⟩

theorem runSteps_cons_ok (st s1 : RawStore) (f : LoadStep) (fs : List LoadStep)
    (h : f st = .ok s1) : runSteps st (f :: fs) = runSteps s1 fs := by
  show (match f st with
    | .error _ => (false, st)
    | .ok st' => runSteps st' fs) = runSteps s1 fs
  rw [h]

theorem readAssign_ok (src : Option DF) (assign : RawStore → DF → RawStore)
    (s s' : RawStore) (h : readAssign src assign s = .ok s') :
    ∃ df, src = some df ∧ s' = assign s df := by
  rcases src with _ | df
  · exact absurd h (by simp [readAssign])
  · refine ⟨df, rfl, ?_⟩
    have : Except.ok (ε := String) (assign s df) = .ok s' := h
    exact (Except.ok.inj this).symm

theorem onInternal_ok (f : DF → Except String DF) (s s' : RawStore)
    (h : onInternal f s = .ok s') :
    ∃ df df', s.hound_internal = some df ∧ f df = .ok df' ∧
      s' = { s with hound_internal := some df' } := by
  unfold onInternal at h
  rcases hdf : s.hound_internal with _ | df
  · simp [hdf] at h
  · simp only [hdf] at h
    rcases hf : f df with e | df'
    · rw [hf] at h
      exact absurd h (by simp [Except.map])
    · rw [hf] at h
      refine ⟨df, df', rfl, hf, ?_⟩
      simpa [Except.map] using h.symm

theorem onExternal_ok (f : DF → Except String DF) (s s' : RawStore)
    (h : onExternal f s = .ok s') :
    ∃ df df', s.hound_external = some df ∧ f df = .ok df' ∧
      s' = { s with hound_external := some df' } := by
  unfold onExternal at h
  rcases hdf : s.hound_external with _ | df
  · simp [hdf] at h
  · simp only [hdf] at h
    rcases hf : f df with e | df'
    · rw [hf] at h
      exact absurd h (by simp [Except.map])
    · rw [hf] at h
      refine ⟨df, df', rfl, hf, ?_⟩
      simpa [Except.map] using h.symm

/-- Decomposition of a successful load: all three sources were readable
    and both cleaning pipelines succeeded, and the final store holds the
    cleaned frames. -/
theorem load_true_decomp (st st' : RawStore) (si se sx : Option DF)
    (h : load_data st si se sx = (true, st')) :
    ∃ dfI dfE dfX dfI' dfE',
      si = some dfI ∧ se = some dfE ∧ sx = some dfX ∧
      cleanInternal dfI = .ok dfI' ∧ cleanExternal dfE = .ok dfE' ∧
      st' = ⟨some dfI', some dfE', some dfX⟩ := by
  unfold load_data loadSteps at h
  obtain ⟨s1, h1, h⟩ := runSteps_cons_true _ _ _ _ h
  obtain ⟨dfI, hsi, hs1⟩ := readAssign_ok _ _ _ _ h1
  subst hs1
  obtain ⟨s2, h2, h⟩ := runSteps_cons_true _ _ _ _ h
  obtain ⟨dfE, hse, hs2⟩ := readAssign_ok _ _ _ _ h2
  subst hs2
  obtain ⟨s3, h3, h⟩ := runSteps_cons_true _ _ _ _ h
  obtain ⟨dfX, hsx, hs3⟩ := readAssign_ok _ _ _ _ h3
  subst hs3
  obtain ⟨s4, h4, h⟩ := runSteps_cons_true _ _ _ _ h
  obtain ⟨dfa, dfI1, hproj4, hc1, hs4⟩ := onInternal_ok _ _ _ h4
  have hdfa : dfI = dfa := Option.some.inj hproj4
  subst hdfa
  subst hs4
  obtain ⟨s5, h5, h⟩ := runSteps_cons_true _ _ _ _ h
  obtain ⟨dfb, dfI2, hproj5, hc2, hs5⟩ := onInternal_ok _ _ _ h5
  have hdfb : dfI1 = dfb := Option.some.inj hproj5
  subst hdfb
  subst hs5
  obtain ⟨s6, h6, h⟩ := runSteps_cons_true _ _ _ _ h
  obtain ⟨dfc, dfI3, hproj6, hc3, hs6⟩ := onInternal_ok _ _ _ h6
  have hdfc : dfI2 = dfc := Option.some.inj hproj6
  subst hdfc
  subst hs6
  obtain ⟨s7, h7, h⟩ := runSteps_cons_true _ _ _ _ h
  obtain ⟨dfd, dfE1, hproj7, hc4, hs7⟩ := onExternal_ok _ _ _ h7
  have hdfd : dfE = dfd := Option.some.inj hproj7
  subst hdfd
  subst hs7
  obtain ⟨s8, h8, h⟩ := runSteps_cons_true _ _ _ _ h
  obtain ⟨dfe, dfE2, hproj8, hc5, hs8⟩ := onExternal_ok _ _ _ h8
  have hdfe : dfE1 = dfe := Option.some.inj hproj8
  subst hdfe
  subst hs8
  obtain ⟨s9, h9, h⟩ := runSteps_cons_true _ _ _ _ h
  obtain ⟨dff, dfE3, hproj9, hc6, hs9⟩ := onExternal_ok _ _ _ h9
  have hdff : dfE2 = dff := Option.some.inj hproj9
  subst hdff
  subst hs9
  obtain ⟨s10, h10, h⟩ := runSteps_cons_true _ _ _ _ h
  obtain ⟨dfg, dfE4, hproj10, hc7, hs10⟩ := onExternal_ok _ _ _ h10
  have hdfg : dfE3 = dfg := Option.some.inj hproj10
  subst hdfg
  subst hs10
  obtain ⟨s11, h11, h⟩ := runSteps_cons_true _ _ _ _ h
  obtain ⟨dfh, dfE5, hproj11, hc8, hs11⟩ := onExternal_ok _ _ _ h11
  have hdfh : dfE4 = dfh := Option.some.inj hproj11
  subst hdfh
  subst hs11
  have hfin : st' = (⟨some dfI3, some dfE5, some dfX⟩ : RawStore) := by
    have h' : ((true, (⟨some dfI3, some dfE5, some dfX⟩ : RawStore)) :
        Bool × RawStore) = (true, st') := h
    exact ((Prod.mk.injEq _ _ _ _).mp h').2.symm
  refine ⟨dfI, dfE, dfX, dfI3, dfE5, hsi, hse, hsx, ?_, ?_, hfin⟩
  · show cleanInternal dfI = .ok dfI3
    unfold cleanInternal
    rw [hc1]
    show cleanPriceCol dfI1 "ExpBaseRate ($)" >>= _ = _
    rw [hc2]
    exact hc3
  · show cleanExternal dfE = .ok dfE5
    have hc4' : (if "check_in" ∈ dfE.cols then convertDateCol dfE "check_in"
      else Except.ok dfE) = Except.ok dfE1 := hc4
    have hc5' : (if "check_in" ∈ dfE1.cols then convertDateCol dfE1 "check_out"
      else Except.ok dfE1) = Except.ok dfE2 := hc5
    have hc6' : numAssign dfE2 "price_per_night_despegar" "price_despegar (USD)"
      "los" (fun x y => x / y) = Except.ok dfE3 := hc6
    have hc7' : numAssign dfE3 "price_per_night_competitor"
      "buyers_best_price_competitor_total (USD)" "los" (fun x y => x / y) =
      Except.ok dfE4 := hc7
    have hc8' : numAssign dfE4 "price_diff_pct"
      "buyers_best_price_competitor_total (USD)" "price_despegar (USD)"
      (fun x y => (x - y) / y * 100) = Except.ok dfE5 := hc8
    unfold cleanExternal
    rw [hc4']
    show ((if "check_in" ∈ dfE1.cols then convertDateCol dfE1 "check_out"
      else .ok dfE1).bind _ : Except String DF) = _
    rw [hc5']
    show ((numAssign dfE2 "price_per_night_despegar" "price_despegar (USD)" "los"
      (fun x y => x / y)).bind _ : Except String DF) = _
    rw [hc6']
    show ((numAssign dfE3 "price_per_night_competitor"
      "buyers_best_price_competitor_total (USD)" "los"
      (fun x y => x / y)).bind _ : Except String DF) = _
    rw [hc7']
    exact hc8'

/-- C1 (amended): a call to `load` succeeds only with all three sources
    readable and both cleaning pipelines successful, in which case all
    three tables are replaced (internal and external by their cleaned
    frames); a failing first read leaves the store untouched, but `load`
    is not atomic on later failures — tables assigned before the failing
    statement remain replaced. -/
theorem C1_load_atomicity (st st' : RawStore) (si se sx : Option DF) :
    (si = none → load_data st si se sx = (false, st)) ∧
    (load_data st si se sx = (true, st') →
      ∃ dfI dfE dfX dfI' dfE',
        si = some dfI ∧ se = some dfE ∧ sx = some dfX ∧
        cleanInternal dfI = .ok dfI' ∧ cleanExternal dfE = .ok dfE' ∧
        st' = ⟨some dfI', some dfE', some dfX⟩) :=
  ⟨fun hsi => by subst hsi; rfl,
    fun h => load_true_decomp st st' si se sx h⟩
/-- Counterexample to C1 as stated: with the first source readable and the
    second malformed, `load` reports failure but the internal table has
    already been replaced — the observed store differs from the store
    before the call, so a failing load is not atomic. -/
theorem C1_not_atomic_cex :
    (load_data C1st (some C1dfNew) none none).1 = false ∧
    (load_data C1st (some C1dfNew) none none).2 ≠ C1st := by
  constructor
  · rfl
  · decide

/-! ### Column lemmas for the cleaning pipeline -/

theorem isQCell_extract (o : Option Cell) (h : isQCell o = true) :
    ∃ v : ℚ, o = some (.q v) := by
  rcases o with _ | cell
  · simp [isQCell] at h
  · rcases cell with v | v | v
    · simp [isQCell] at h
    · exact ⟨v, rfl⟩
    · simp [isQCell] at h

theorem floatableCell_extract (o : Option Cell) (h : floatableCell o = true) :
    ∃ cell v, o = some cell ∧ cellToFloat cell = some v := by
  rcases o with _ | cell
  · simp [floatableCell] at h
  · rcases hf : cellToFloat cell with _ | v
    · rw [floatableCell, hf] at h
      simp at h
    · exact ⟨cell, v, rfl, hf⟩

/-- Pointwise success of a per-row column operation, with preservation of
    arbitrary cell predicates on every other column. -/
theorem rowsMapE_ok_preserve (g : RawRow → Except String RawRow) (c : String)
    (hg : ∀ r r', g r = .ok r' → ∀ c', c' ≠ c → alookup r' c' = alookup r c') :
    ∀ rows : List RawRow, (∀ r ∈ rows, ∃ r', g r = .ok r') →
      ∃ rows', rowsMapE g rows = .ok rows' ∧
        ∀ c', c' ≠ c → ∀ P : Option Cell → Bool,
          (∀ r ∈ rows, P (alookup r c') = true) →
          ∀ r' ∈ rows', P (alookup r' c') = true := by
  intro rows
  induction rows with
  | nil =>
    intro _
    exact ⟨[], rfl, fun _ _ _ _ r' hr' => absurd hr' (List.not_mem_nil _)⟩
  | cons r rs ih =>
    intro hall
    obtain ⟨r', hr'⟩ := hall r (List.mem_cons_self r rs)
    obtain ⟨rows', hrows', hpres⟩ := ih (fun x hx => hall x (List.mem_cons_of_mem r hx))
    refine ⟨r' :: rows', ?_, ?_⟩
    · show (match g r with
        | Except.error e => Except.error e
        | Except.ok r' => match rowsMapE g rs with
          | Except.error e => Except.error e
          | Except.ok rs' => Except.ok (r' :: rs')) = Except.ok (r' :: rows')
      rw [hr', hrows']
    · intro c' hne P hP x hx
      rcases List.mem_cons.mp hx with hx | hx
      · subst hx
        rw [hg r x hr' c' hne]
        exact hP r (List.mem_cons_self r rs)
      · exact hpres c' hne P (fun y hy => hP y (List.mem_cons_of_mem r hy)) x hx

/-- Models `cleanPriceCol` succeeds when the column is absent (skipped) or fully
    float-convertible; columns are unchanged and cell predicates on other
    columns are preserved. -/
theorem cleanPriceCol_ok (df : DF) (c : String)
    (h : c ∈ df.cols → colAllFloatable df c) :
    ∃ df', cleanPriceCol df c = .ok df' ∧ df'.cols = df.cols ∧
      ∀ c', c' ≠ c → colAllFloatable df c' → colAllFloatable df' c' := by
  by_cases hc : c ∈ df.cols
  · have hflt := h hc
    have hg : ∀ r r' : RawRow, (match alookup r c with
        | some cell =>
          match cellToFloat cell with
          | some v => Except.ok (dictInsert r c (Cell.q v))
          | none => Except.error "ValueError"
        | none => Except.error "KeyError") = Except.ok r' →
        ∀ c', c' ≠ c → alookup r' c' = alookup r c' := by
      intro r r' hgr c' hne
      split at hgr
      · split at hgr
        · have hr' := Except.ok.inj hgr
          rw [← hr']
          exact alookup_dictInsert_ne r c c' _ (Ne.symm hne)
        · simp at hgr
      · simp at hgr
    have hall : ∀ r ∈ df.rows, ∃ r' : RawRow, (match alookup r c with
        | some cell =>
          match cellToFloat cell with
          | some v => Except.ok (dictInsert r c (Cell.q v))
          | none => Except.error "ValueError"
        | none => Except.error "KeyError") = Except.ok r' := by
      intro r hr
      obtain ⟨cell, v, hcell, hv⟩ := floatableCell_extract _ (hflt r hr)
      exact ⟨dictInsert r c (.q v), by simp [hcell, hv]⟩
    obtain ⟨rows', hrows', hpres⟩ := rowsMapE_ok_preserve _ c hg df.rows hall
    refine ⟨{ df with rows := rows' }, ?_, rfl, ?_⟩
    · rw [cleanPriceCol, if_pos hc, hrows']
    · intro c' hne hp r' hr'
      exact hpres c' hne floatableCell hp r' hr'
  · refine ⟨df, ?_, rfl, fun _ _ hp => hp⟩
    rw [cleanPriceCol, if_neg hc]

/-- Models `numAssign` succeeds when both operand columns are present and
    numeric; existing columns survive, and cell predicates on columns
    other than the assigned one are preserved. -/
theorem numAssign_ok (df : DF) (new a b : String) (f : ℚ → ℚ → ℚ)
    (ha : a ∈ df.cols) (hb : b ∈ df.cols)
    (hqa : colAllQ df a) (hqb : colAllQ df b) :
    ∃ df', numAssign df new a b f = .ok df' ∧
      df'.cols = (if new ∈ df.cols then df.cols else df.cols ++ [new]) ∧
      ∀ c', c' ≠ new → colAllQ df c' → colAllQ df' c' := by
  have hg : ∀ r r' : RawRow, (match alookup r a, alookup r b with
      | some (Cell.q x), some (Cell.q y) =>
        Except.ok (dictInsert r new (Cell.q (f x y)))
      | some _, some _ => Except.error "TypeError"
      | _, _ => Except.error "KeyError") = Except.ok r' →
      ∀ c', c' ≠ new → alookup r' c' = alookup r c' := by
    intro r r' hgr c' hne
    split at hgr
    · have hr' := Except.ok.inj hgr
      rw [← hr']
      exact alookup_dictInsert_ne r new c' _ (Ne.symm hne)
    · simp at hgr
    · simp at hgr
  have hall : ∀ r ∈ df.rows, ∃ r' : RawRow, (match alookup r a, alookup r b with
      | some (Cell.q x), some (Cell.q y) =>
        Except.ok (dictInsert r new (Cell.q (f x y)))
      | some _, some _ => Except.error "TypeError"
      | _, _ => Except.error "KeyError") = Except.ok r' := by
    intro r hr
    obtain ⟨x, hx⟩ := isQCell_extract _ (hqa r hr)
    obtain ⟨y, hy⟩ := isQCell_extract _ (hqb r hr)
    exact ⟨dictInsert r new (.q (f x y)), by simp [hx, hy]⟩
  obtain ⟨rows', hrows', hpres⟩ := rowsMapE_ok_preserve _ new hg df.rows hall
  refine ⟨⟨if new ∈ df.cols then df.cols else df.cols ++ [new], rows'⟩, ?_, rfl, ?_⟩
  · rw [numAssign, if_pos ⟨ha, hb⟩, hrows']
  · intro c' hne hp r' hr'
    exact hpres c' hne isQCell hp r' hr'

/-- The operand columns are necessary for a derived-column assignment. -/
theorem numAssign_requires (df df' : DF) (new a b : String) (f : ℚ → ℚ → ℚ)
    (h : numAssign df new a b f = .ok df') : a ∈ df.cols ∧ b ∈ df.cols := by
  by_contra hc
  rw [numAssign, if_neg hc] at h
  exact absurd h (by simp)

/-- A derived-column assignment extends the column list by at most the
    assigned name. -/
theorem numAssign_cols (df df' : DF) (new a b : String) (f : ℚ → ℚ → ℚ)
    (h : numAssign df new a b f = .ok df') :
    df'.cols = (if new ∈ df.cols then df.cols else df.cols ++ [new]) := by
  rw [numAssign] at h
  by_cases hab : a ∈ df.cols ∧ b ∈ df.cols
  · rw [if_pos hab] at h
    rcases hrows : rowsMapE (fun r =>
        match alookup r a, alookup r b with
        | some (.q x), some (.q y) => Except.ok (dictInsert r new (.q (f x y)))
        | some _, some _ => Except.error "TypeError"
        | _, _ => Except.error "KeyError") df.rows with e | rows'
    · rw [hrows] at h
      exact absurd h (by simp)
    · rw [hrows] at h
      rw [← Except.ok.inj h]
  · rw [if_neg hab] at h
    exact absurd h (by simp)

/-- Date conversion does not change the column list. -/
theorem convertDateCol_cols (df df' : DF) (c : String)
    (h : convertDateCol df c = .ok df') : df'.cols = df.cols := by
  rw [convertDateCol] at h
  by_cases hc : c ∈ df.cols
  · rw [if_pos hc] at h
    rcases hrows : rowsMapE (fun r =>
        match alookup r c with
        | some cell =>
          match cellToDate cell with
          | some c' => Except.ok (dictInsert r c c')
          | none => Except.error "ParserError"
        | none => Except.error "KeyError") df.rows with e | rows'
    · rw [hrows] at h
      exact absurd h (by simp)
    · rw [hrows] at h
      rw [← Except.ok.inj h]
  · rw [if_neg hc] at h
    exact absurd h (by simp)

/-- A successful external cleaning needs the own-price, competitor-price
    and stay-length columns — and nothing else. -/
theorem cleanExternal_requires (dfE dfE' : DF)
    (h : cleanExternal dfE = .ok dfE') :
    "price_despegar (USD)" ∈ dfE.cols ∧
    "buyers_best_price_competitor_total (USD)" ∈ dfE.cols ∧
    "los" ∈ dfE.cols := by
  unfold cleanExternal at h
  rcases h1 : (if "check_in" ∈ dfE.cols then convertDateCol dfE "check_in"
      else Except.ok dfE) with e | df1
  · rw [h1] at h
    exact absurd h (by simp [Except.bind])
  · rw [h1] at h
    simp only [Except.bind] at h
    have hc1 : df1.cols = dfE.cols := by
      by_cases hcin : "check_in" ∈ dfE.cols
      · rw [if_pos hcin] at h1
        exact convertDateCol_cols _ _ _ h1
      · rw [if_neg hcin] at h1
        rw [← Except.ok.inj h1]
    rcases h2 : (if "check_in" ∈ df1.cols then convertDateCol df1 "check_out"
        else Except.ok df1) with e | df2
    · rw [h2] at h
      exact absurd h (by simp [Except.bind])
    · rw [h2] at h
      simp only [Except.bind] at h
      have hc2 : df2.cols = dfE.cols := by
        rw [← hc1]
        by_cases hcin : "check_in" ∈ df1.cols
        · rw [if_pos hcin] at h2
          exact convertDateCol_cols _ _ _ h2
        · rw [if_neg hcin] at h2
          rw [← Except.ok.inj h2]
      rcases h3 : numAssign df2 "price_per_night_despegar" "price_despegar (USD)"
          "los" (fun x y => x / y) with e | df3
      · rw [h3] at h
        exact absurd h (by simp [Except.bind])
      · rw [h3] at h
        simp only [Except.bind] at h
        obtain ⟨hp2, hl2⟩ := numAssign_requires _ _ _ _ _ _ h3
        have hc3 := numAssign_cols _ _ _ _ _ _ h3
        rcases h4 : numAssign df3 "price_per_night_competitor"
            "buyers_best_price_competitor_total (USD)" "los" (fun x y => x / y)
            with e | df4
        · rw [h4] at h
          exact absurd h (by simp [Except.bind])
        · obtain ⟨hcomp3, _⟩ := numAssign_requires _ _ _ _ _ _ h4
          have hcomp2 : "buyers_best_price_competitor_total (USD)" ∈ df2.cols := by
            rw [hc3] at hcomp3
            by_cases hmem : "price_per_night_despegar" ∈ df2.cols
            · rwa [if_pos hmem] at hcomp3
            · rw [if_neg hmem] at hcomp3
              rcases List.mem_append.mp hcomp3 with hx | hx
              · exact hx
              · rw [List.mem_singleton] at hx
                exact absurd hx (by decide)
          rw [hc2] at hp2 hl2 hcomp2
          exact ⟨hp2, hcomp2, hl2⟩

/-- Sufficient conditions for a successful load: readable sources, the
    three numeric external columns present, no date column, and any
    present internal price columns float-convertible.  Notably there is
    no requirement on internal currency/market columns, external
    party/market/agency columns, or any channel-configuration column. -/
theorem load_success_of (st : RawStore) (dfI dfE dfX : DF)
    (hIP : ∀ c ∈ (["PamBaseRate ($)", "ExpBaseRate ($)", "HBGBaseRate ($)"] :
      List String), c ∈ dfI.cols → colAllFloatable dfI c)
    (hcin : "check_in" ∉ dfE.cols)
    (hp : "price_despegar (USD)" ∈ dfE.cols)
    (hcc : "buyers_best_price_competitor_total (USD)" ∈ dfE.cols)
    (hl : "los" ∈ dfE.cols)
    (hqp : colAllQ dfE "price_despegar (USD)")
    (hqc : colAllQ dfE "buyers_best_price_competitor_total (USD)")
    (hql : colAllQ dfE "los") :
    (load_data st (some dfI) (some dfE) (some dfX)).1 = true := by
  obtain ⟨dfI1, hci1, hcols1, hpres1⟩ :=
    cleanPriceCol_ok dfI "PamBaseRate ($)" (hIP _ (by simp))
  obtain ⟨dfI2, hci2, hcols2, hpres2⟩ :=
    cleanPriceCol_ok dfI1 "ExpBaseRate ($)" (by
      rw [hcols1]
      intro hmem
      exact hpres1 _ (by decide) (hIP _ (by simp) hmem))
  obtain ⟨dfI3, hci3, _, _⟩ :=
    cleanPriceCol_ok dfI2 "HBGBaseRate ($)" (by
      rw [hcols2, hcols1]
      intro hmem
      exact hpres2 _ (by decide) (hpres1 _ (by decide) (hIP _ (by simp) hmem)))
  obtain ⟨dfE3, hn1, hcolsE1, hpresE1⟩ :=
    numAssign_ok dfE "price_per_night_despegar" "price_despegar (USD)" "los"
      (fun x y => x / y) hp hl hqp hql
  have hmemE1 : ∀ c, c ∈ dfE.cols → c ∈ dfE3.cols := by
    intro c hc
    rw [hcolsE1]
    by_cases hmem : "price_per_night_despegar" ∈ dfE.cols
    · rwa [if_pos hmem]
    · rw [if_neg hmem]
      exact List.mem_append_left _ hc
  obtain ⟨dfE4, hn2, hcolsE2, hpresE2⟩ :=
    numAssign_ok dfE3 "price_per_night_competitor"
      "buyers_best_price_competitor_total (USD)" "los" (fun x y => x / y)
      (hmemE1 _ hcc) (hmemE1 _ hl)
      (hpresE1 _ (by decide) hqc) (hpresE1 _ (by decide) hql)
  have hmemE2 : ∀ c, c ∈ dfE3.cols → c ∈ dfE4.cols := by
    intro c hc
    rw [hcolsE2]
    by_cases hmem : "price_per_night_competitor" ∈ dfE3.cols
    · rwa [if_pos hmem]
    · rw [if_neg hmem]
      exact List.mem_append_left _ hc
  obtain ⟨dfE5, hn3, _, _⟩ :=
    numAssign_ok dfE4 "price_diff_pct" "buyers_best_price_competitor_total (USD)"
      "price_despegar (USD)" (fun x y => (x - y) / y * 100)
      (hmemE2 _ (hmemE1 _ hcc)) (hmemE2 _ (hmemE1 _ hp))
      (hpresE2 _ (by decide) (hpresE1 _ (by decide) hqc))
      (hpresE2 _ (by decide) (hpresE1 _ (by decide) hqp))
  unfold load_data loadSteps
  rw [runSteps_cons_ok _ _ _ _
    (show readAssign (some dfI)
        (fun st df => { st with hound_internal := some df }) st =
      .ok ⟨some dfI, st.hound_external, st.extranet⟩ from rfl)]
  rw [runSteps_cons_ok _ _ _ _
    (show readAssign (some dfE)
        (fun st df => { st with hound_external := some df })
        ⟨some dfI, st.hound_external, st.extranet⟩ =
      .ok ⟨some dfI, some dfE, st.extranet⟩ from rfl)]
  rw [runSteps_cons_ok _ _ _ _
    (show readAssign (some dfX) (fun st df => { st with extranet := some df })
        ⟨some dfI, some dfE, st.extranet⟩ =
      .ok ⟨some dfI, some dfE, some dfX⟩ from rfl)]
  rw [runSteps_cons_ok _ _ _ _
    (show onInternal (fun df => cleanPriceCol df "PamBaseRate ($)")
        ⟨some dfI, some dfE, some dfX⟩ =
      .ok ⟨some dfI1, some dfE, some dfX⟩ from by
      simp [onInternal, hci1, Except.map])]
  rw [runSteps_cons_ok _ _ _ _
    (show onInternal (fun df => cleanPriceCol df "ExpBaseRate ($)")
        ⟨some dfI1, some dfE, some dfX⟩ =
      .ok ⟨some dfI2, some dfE, some dfX⟩ from by
      simp [onInternal, hci2, Except.map])]
  rw [runSteps_cons_ok _ _ _ _
    (show onInternal (fun df => cleanPriceCol df "HBGBaseRate ($)")
        ⟨some dfI2, some dfE, some dfX⟩ =
      .ok ⟨some dfI3, some dfE, some dfX⟩ from by
      simp [onInternal, hci3, Except.map])]
  rw [runSteps_cons_ok _ _ _ _
    (show onExternal (fun df =>
        if "check_in" ∈ df.cols then convertDateCol df "check_in" else .ok df)
        ⟨some dfI3, some dfE, some dfX⟩ =
      .ok ⟨some dfI3, some dfE, some dfX⟩ from by
      simp [onExternal, if_neg hcin, Except.map])]
  rw [runSteps_cons_ok _ _ _ _
    (show onExternal (fun df =>
        if "check_in" ∈ df.cols then convertDateCol df "check_out" else .ok df)
        ⟨some dfI3, some dfE, some dfX⟩ =
      .ok ⟨some dfI3, some dfE, some dfX⟩ from by
      simp [onExternal, if_neg hcin, Except.map])]
  rw [runSteps_cons_ok _ _ _ _
    (show onExternal (fun df =>
        numAssign df "price_per_night_despegar" "price_despegar (USD)" "los"
          (fun x y => x / y)) ⟨some dfI3, some dfE, some dfX⟩ =
      .ok ⟨some dfI3, some dfE3, some dfX⟩ from by
      simp [onExternal, hn1, Except.map])]
  rw [runSteps_cons_ok _ _ _ _
    (show onExternal (fun df =>
        numAssign df "price_per_night_competitor"
          "buyers_best_price_competitor_total (USD)" "los" (fun x y => x / y))
        ⟨some dfI3, some dfE3, some dfX⟩ =
      .ok ⟨some dfI3, some dfE4, some dfX⟩ from by
      simp [onExternal, hn2, Except.map])]
  rw [runSteps_cons_ok _ _ _ _
    (show onExternal (fun df =>
        numAssign df "price_diff_pct" "buyers_best_price_competitor_total (USD)"
          "price_despegar (USD)" (fun x y => (x - y) / y * 100))
        ⟨some dfI3, some dfE4, some dfX⟩ =
      .ok ⟨some dfI3, some dfE5, some dfX⟩ from by
      simp [onExternal, hn3, Except.map])]
  rfl

/-- C2 (amended): the load-time column contract is exactly the three
    numeric external columns.  (a) A load succeeds with the internal
    rate/currency/market columns, the external date/party/market/agency
    columns, and all channel-configuration columns missing, provided the
    external own-price, competitor-price and stay-length columns are
    present and numeric (and any present internal price column parses).
    (b) Conversely, a successful load implies those three external
    columns were present — their absence is the only missing-column
    load failure. -/
theorem C2_required_columns :
    (∀ (st : RawStore) (dfI dfE dfX : DF),
      (∀ c ∈ (["PamBaseRate ($)", "ExpBaseRate ($)", "HBGBaseRate ($)"] :
        List String), c ∈ dfI.cols → colAllFloatable dfI c) →
      "check_in" ∉ dfE.cols →
      "price_despegar (USD)" ∈ dfE.cols →
      "buyers_best_price_competitor_total (USD)" ∈ dfE.cols →
      "los" ∈ dfE.cols →
      colAllQ dfE "price_despegar (USD)" →
      colAllQ dfE "buyers_best_price_competitor_total (USD)" →
      colAllQ dfE "los" →
      (load_data st (some dfI) (some dfE) (some dfX)).1 = true) ∧
    (∀ (st st' : RawStore) (si sx : Option DF) (dfE : DF),
      load_data st si (some dfE) sx = (true, st') →
      "price_despegar (USD)" ∈ dfE.cols ∧
      "buyers_best_price_competitor_total (USD)" ∈ dfE.cols ∧
      "los" ∈ dfE.cols) := by
  constructor
  · intro st dfI dfE dfX hIP hcin hp hcc hl hqp hqc hql
    exact load_success_of st dfI dfE dfX hIP hcin hp hcc hl hqp hqc hql
  · intro st st' si sx dfE h
    obtain ⟨dfI0, dfE0, dfX0, dfI', dfE', hsi, hse, hsx, hcI, hcE, hst⟩ :=
      load_true_decomp _ _ _ _ _ h
    have hEeq : dfE = dfE0 := Option.some.inj hse
    subst hEeq
    exact cleanExternal_requires _ _ hcE

/-- Counterexample to C2 as stated: a load whose internal source lacks
    the contracted-rate, currency and market columns and whose
    channel-configuration source lacks all seven validator fields (and
    whose external source has no date, party, market or agency columns)
    succeeds instead of failing. -/
theorem C2_missing_columns_cex :
    ("PamBaseRate ($)" ∉ C2dfI.cols ∧ "contractcurrencybase_pam" ∉ C2dfI.cols ∧
      "PoS" ∉ C2dfI.cols) ∧
    ("Api_Tildado" ∉ C2dfX.cols ∧ "Disponibilidad" ∉ C2dfX.cols) ∧
    ("check_in" ∉ C2dfE.cols ∧ "adults" ∉ C2dfE.cols ∧ "agency_name" ∉ C2dfE.cols) ∧
    (load_data C2st (some C2dfI) (some C2dfE) (some C2dfX)).1 = true := by
  refine ⟨by decide, by decide, by decide, ?_⟩
  exact load_success_of C2st C2dfI C2dfE C2dfX (by decide) (by decide) (by decide)
    (by decide) (by decide) (by decide) (by decide) (by decide)

/-- Witness for the amended C2 at the concrete frames. -/
theorem C2_required_columns_witness :
    (load_data C2st (some C2dfI) (some C2dfE) (some C2dfX)).1 = true ∧
    "price_despegar (USD)" ∈ C2dfE.cols := by
  have h1 : (load_data C2st (some C2dfI) (some C2dfE) (some C2dfX)).1 = true :=
    C2_required_columns.1 C2st C2dfI C2dfE C2dfX (by decide) (by decide) (by decide)
      (by decide) (by decide) (by decide) (by decide) (by decide)
  have hpair : load_data C2st (some C2dfI) (some C2dfE) (some C2dfX) =
      (true, (load_data C2st (some C2dfI) (some C2dfE) (some C2dfX)).2) := by
    rw [← h1]
  exact ⟨h1, (C2_required_columns.2 C2st _ (some C2dfI) (some C2dfX) C2dfE hpair).1⟩

/-- Witness for the amended C1: a failing first read leaves the concrete
    store untouched, and a successful concrete load replaces all three
    tables with the cleaned frames. -/
theorem C1_load_atomicity_witness :
    load_data C1st none (some C1dfOld) (some C1dfOld) = (false, C1st) ∧
    (∃ dfI dfE dfX dfI' dfE',
      (some C2dfI : Option DF) = some dfI ∧ (some C2dfE : Option DF) = some dfE ∧
      (some C2dfX : Option DF) = some dfX ∧
      cleanInternal dfI = .ok dfI' ∧ cleanExternal dfE = .ok dfE' ∧
      (load_data C2st (some C2dfI) (some C2dfE) (some C2dfX)).2 =
        ⟨some dfI', some dfE', some dfX⟩) := by
  constructor
  · exact (C1_load_atomicity C1st C1st none (some C1dfOld) (some C1dfOld)).1 rfl
  · have h1 : (load_data C2st (some C2dfI) (some C2dfE) (some C2dfX)).1 = true :=
      load_success_of C2st C2dfI C2dfE C2dfX (by decide) (by decide) (by decide)
        (by decide) (by decide) (by decide) (by decide) (by decide)
    have hpair : load_data C2st (some C2dfI) (some C2dfE) (some C2dfX) =
        (true, (load_data C2st (some C2dfI) (some C2dfE) (some C2dfX)).2) := by
      rw [← h1]
    exact (C1_load_atomicity C2st _ (some C2dfI) (some C2dfE) (some C2dfX)).2 hpair

/-- Witness for C5 at a concrete record failing only the API check. -/
theorem C5_validator_score_witness :
    rowVals ⟨"H1", .s "No", .s "Sí", .s "1", .q 1, .s "PACKAGE", .s "AR, BR", 95/100⟩ =
      ⟨false, true, true, true, true, true, true⟩ ∧
    (validateRow ⟨"H1", .s "No", .s "Sí", .s "1", .q 1, .s "PACKAGE", .s "AR, BR",
      95/100⟩).config_score = 857/10 ∧
    (validateRow ⟨"H1", .s "No", .s "Sí", .s "1", .q 1, .s "PACKAGE", .s "AR, BR",
      95/100⟩).status = "optimal" ∧
    (validateRow ⟨"H1", .s "No", .s "Sí", .s "1", .q 1, .s "PACKAGE", .s "AR, BR",
      95/100⟩).critical_issues = ["API no configurado"] := by
  have hv : rowVals ⟨"H1", .s "No", .s "Sí", .s "1", .q 1, .s "PACKAGE", .s "AR, BR",
      95/100⟩ = ⟨false, true, true, true, true, true, true⟩ := by
    simp [rowVals, isSi, notStandalone, hasMarkets]
    norm_num
  exact ⟨hv, C5_validator_score _ |>.2.2.2.2.2 hv⟩

end HotelComp
